import Mathlib

/-!
Verification of the Tale command interpreter (`tale/base.py`): a shallow
embedding of `Soul.parse`, `Soul.check_name_with_spaces`,
`Soul.match_previously_parsed`, `Soul.process_verb_parsed` and
`Living.parse`, together with theorems about the documented properties.

The modules `tale/verbdefs.py`, `tale/lang.py`, `tale/parseresult.py` and
`tale/errors.py` are not part of the sources; the definitions that stand in
for them are modelled from the specification and are marked as such.
-/

namespace Tale

/-! ## Python string primitives used by the source -/

/-- Python `str.lstrip()` (strip leading whitespace). -/
def pyLstrip (s : String) : String := ⟨s.data.dropWhile Char.isWhitespace⟩

/-- Python `str.strip()` (strip whitespace at both ends). -/
def pyStrip (s : String) : String :=
  ⟨((s.data.dropWhile Char.isWhitespace).reverse.dropWhile Char.isWhitespace).reverse⟩

/-- Helper of `pySplit`: `cur` is the current word, reversed. -/
def pySplitGo : List Char → List Char → List String
  | cur, [] => if cur = [] then [] else [⟨cur.reverse⟩]
  | cur, c :: rest =>
    if c.isWhitespace then
      (if cur = [] then pySplitGo [] rest else ⟨cur.reverse⟩ :: pySplitGo [] rest)
    else pySplitGo (c :: cur) rest

/-- Python `str.split()` with no argument: split on whitespace runs, no empty words. -/
def pySplit (s : String) : List String := pySplitGo [] s.data

/-- Python `sep.join(l)`. -/
def joinWith (sep : String) : List String → String
  | [] => ""
  | [x] => x
  | x :: xs => x ++ sep ++ joinWith sep xs

/-- Python `s.startswith(pre)`. -/
def pyStartsWith (s pre : String) : Bool := pre.data.isPrefixOf s.data

/-- Python `s.endswith(suf)`. -/
def pyEndsWith (s suf : String) : Bool := suf.data.isSuffixOf s.data

/-- Python `s.lower()`. -/
def pyToLower (s : String) : String := ⟨s.data.map Char.toLower⟩

/-- Helper of `pyReplace`: replace occurrences of `pat` left to right,
non-overlapping; `fuel` bounds the scan structurally (any `fuel ≥` the list
length gives the full scan). -/
def replaceGo (pat rep : List Char) : Nat → List Char → List Char
  | _, [] => []
  | 0, l => l
  | fuel + 1, c :: rest =>
    if pat.isPrefixOf (c :: rest) ∧ pat ≠ [] then
      rep ++ replaceGo pat rep fuel ((c :: rest).drop pat.length)
    else c :: replaceGo pat rep fuel rest

/-- Python `s.replace(pat, rep)` (all occurrences; patterns used are never
empty). -/
def pyReplace (s pat rep : String) : String :=
  ⟨replaceGo pat.data rep.data s.data.length s.data⟩

/-- Python `word.rstrip(",")`: remove all trailing commas. -/
def rstripComma (s : String) : String := ⟨(s.data.reverse.dropWhile (fun c => c == ',')).reverse⟩

/-- Python `string.lstrip(" \t")` as used by `Soul.spacify`. -/
def lstripSpaceTab (s : String) : String :=
  ⟨s.data.dropWhile (fun c => c == ' ' || c == '\t')⟩

/-- Python `s[n:]` on a string. -/
def pyDrop (s : String) (n : Nat) : String := ⟨s.data.drop n⟩

/-- Contiguous-sublist test on lists, used for Python's `pat in s`. -/
def isInfixB (pat : List Char) : List Char → Bool
  | [] => pat.isEmpty
  | c :: rest => pat.isPrefixOf (c :: rest) || isInfixB pat rest

/-- Python `pat in s` substring test. -/
def containsSub (s pat : String) : Bool := isInfixB pat.data s.data

/-! ## `tale/lang.py` helpers (module missing from the sources) -/

/-- Modelled from the spec: `lang.capital` of the missing `tale/lang.py` module;
"with a leading capital letter". -/
def lang_capital (s : String) : String :=
  match s.data with
  | [] => s
  | c :: cs => ⟨c.toUpper :: cs⟩

/-- Modelled from the spec: `lang.fullstop` of the missing `tale/lang.py` module;
"terminated with a full stop". -/
def lang_fullstop (s : String) : String := if pyEndsWith s "." then s else s ++ "."

/-- Modelled from the spec: `lang.join` of the missing `tale/lang.py` module;
joins words with commas and a conjunction before the last one. -/
def lang_join (conj : String) (l : List String) : String :=
  match l with
  | [] => ""
  | [x] => x
  | x :: xs =>
    match xs.reverse with
    | [] => x
    | last :: midrev => joinWith ", " (x :: midrev.reverse) ++ " " ++ conj ++ " " ++ last

/-- Modelled from the spec: `lang.possessive` of the missing `tale/lang.py` module;
the possessive form of a name. -/
def lang_possessive (s : String) : String := s ++ "'s"

/-- Modelled from the spec: the closed adverb dictionary (`lang.ADVERBS`)
of the missing `tale/lang.py` module ("membership test + prefix search"). -/
def ADVERBS : List String :=
  ["angrily", "calmly", "gently", "happily", "loudly", "politely", "sadly", "slowly"]

/-- Modelled from the spec: `lang.adverb_by_prefix` of the missing `tale/lang.py`
module: the adverbs starting with the given word (bounded list). -/
def adverbByPre (word : String) : List String :=
  (ADVERBS.filter (fun a => pyStartsWith a word)).take 5

/-! ## Entities and the candidate snapshot -/

inductive EKind where
  | living
  | item
  | exitKind
deriving DecidableEq, Repr

/-- The read-only face of a world object as consumed by the resolver
(spec section 3: "unique lowercase name, set of alias strings, display title,
grammatical words, an optional default-verb string, membership in one of
living/item/exit"). -/
structure EntityCore where
  name : String
  aliases : List String
  title : String
  subjective : String
  possessive : String
  objective : String
  default_verb : Option String
  kind : EKind
deriving DecidableEq, Repr

/-- A world object together with one level of container contents, as searched
by `Living.locate_item` (which looks inside the items of the inventory); a
container whose inventory raises `ActionRefused` has `invAccessible = false`. -/
structure Entity where
  core : EntityCore
  contents : List EntityCore
  invAccessible : Bool
deriving DecidableEq, Repr

def Entity.name (e : Entity) : String := e.core.name
def Entity.aliases (e : Entity) : List String := e.core.aliases
def Entity.title (e : Entity) : String := e.core.title
def Entity.subjective (e : Entity) : String := e.core.subjective
def Entity.possessive (e : Entity) : String := e.core.possessive
def Entity.objective (e : Entity) : String := e.core.objective
def Entity.default_verb (e : Entity) : Option String := e.core.default_verb
def Entity.kind (e : Entity) : EKind := e.core.kind

/-- The candidate snapshot of a location: livings present, items present,
direction-to-exit mapping (alias directions included as separate keys). -/
structure Location where
  livings : List Entity
  items : List Entity
  exits : List (String × Entity)
deriving DecidableEq, Repr

/-- The acting living: its own entity, its inventory, its location. -/
structure Player where
  me : Entity
  inventory : List Entity
  location : Location
deriving DecidableEq, Repr

/-! ## Python dict model (insertion order, overwrite keeps position) -/

def dictGet {α : Type} (d : List (String × α)) (k : String) : Option α :=
  (d.find? (fun p => p.1 == k)).map Prod.snd

def dictInsert {α : Type} (d : List (String × α)) (k : String) (v : α) : List (String × α) :=
  match d with
  | [] => [(k, v)]
  | (k', v') :: rest => if k' == k then (k, v) :: rest else (k', v') :: dictInsert rest k v

def dictHas {α : Type} (d : List (String × α)) (k : String) : Bool := (dictGet d k).isSome

/-! ## `tale/verbdefs.py` tables (module missing from the sources) -/

/-- Modelled from the spec: the verb-kind tags of the missing `tale/verbdefs.py`
module (§3 "kind + template data"). -/
inductive VType where
  | DEUX
  | QUAD
  | FULL
  | DEFA
  | PREV
  | PHYS
  | SHRT
  | PERS
  | SIMP
deriving DecidableEq, Repr

/-- Modelled from the spec: one `VERBS` table entry of the missing
`tale/verbdefs.py` module, as the tuple `(vtype, prev-tuple, templates...)`
accessed positionally by the source (`verbdata[0]`, `verbdata[1]`,
`verbdata[2]`, ...). `templates` holds the entries from index 2 on. -/
structure VerbData where
  vtype : VType
  prev : Option (List String)
  templates : List String
deriving DecidableEq, Repr

/-- `verbdata[i]` for `i ≥ 2` (call sites are guarded by `len(verbdata)` in the
source, so the default is never observed there). -/
def VerbData.t (vd : VerbData) (i : Nat) : String := vd.templates.getD (i - 2) ""

/-- `len(verbdata)`. -/
def VerbData.len (vd : VerbData) : Nat := 2 + vd.templates.length

/-- Modelled from the spec: a sample of the closed soul-verb table `VERBS`
of the missing `tale/verbdefs.py`, one entry per verb kind that the spec
describes (§3 "Verb table entry"). -/
def VERBS : List (String × VerbData) :=
  [("smile", ⟨VType.DEFA, some ["happily"], ["", " at"]⟩),
   ("wave", ⟨VType.DEFA, none, ["", " at"]⟩),
   ("grin", ⟨VType.DEFA, none, ["", " at"]⟩),
   ("poke", ⟨VType.PREV, none, [""]⟩),
   ("kick", ⟨VType.PHYS, none, [""]⟩),
   ("ask", ⟨VType.DEUX, none, ["ask \nWHO \nWHAT", "asks \nWHO \nWHAT"]⟩),
   ("gag", ⟨VType.QUAD, none, ["gag", "gags", "gag at \nWHO", "gags at \nWHO"]⟩),
   ("ponder", ⟨VType.SIMP, some ["deeply"], ["ponder$ \nHOW"]⟩),
   ("greet", ⟨VType.PERS, none, ["greet$ everyone", "greet$ \nWHO"]⟩),
   ("chuckle", ⟨VType.SHRT, none, [""]⟩)]

/-- Modelled from the spec: one `ACTION_QUALIFIERS` entry of the missing
`tale/verbdefs.py`: "(actor-wrapper template, room-wrapper template, flag
selecting whether the room wrapper is built from the room action text)". -/
structure QualData where
  qual_action : String
  qual_room : String
  use_room_default : Bool
deriving DecidableEq, Repr

/-- Modelled from the spec: the qualifier table `ACTION_QUALIFIERS` of the
missing `tale/verbdefs.py` (e.g. "suddenly", "fail", "don't"; "dont" is a key
too, normalized by the parser). -/
def ACTION_QUALIFIERS : List (String × QualData) :=
  [("suddenly", ⟨"suddenly %s", "suddenly %s", true⟩),
   ("fail", ⟨"try to %s", "tries to %s", false⟩),
   ("again", ⟨"%s again", "%s again", true⟩),
   ("don't", ⟨"don't %s", "doesn't %s", false⟩),
   ("dont", ⟨"don't %s", "doesn't %s", false⟩)]

/-- Modelled from the spec: the body-part dictionary `BODY_PARTS` of the
missing `tale/verbdefs.py` ("membership test + display-phrase lookup"). -/
def BODY_PARTS : List (String × String) :=
  [("head", "on the head"),
   ("nose", "on the nose"),
   ("cheek", "on the cheek"),
   ("arm", "in the arm")]

/-- Modelled from the spec: `MOVEMENT_VERBS` of the missing `tale/verbdefs.py`
("a recognized movement filler (go, walk, ...)"). -/
def MOVEMENT_VERBS : List String := ["go", "walk", "run", "move"]

/-- Modelled from the spec: `NONLIVING_OK_VERBS` of the missing
`tale/verbdefs.py` (verbs allowed to target non-livings). -/
def NONLIVING_OK_VERBS : List String := ["examine", "smell", "touch"]

/-- `Soul._skip_words` (from the source, `base.py` line 1441). -/
def SKIP_WORDS : List String :=
  ["and", "&", "at", "to", "before", "in", "into", "on", "off", "onto",
   "the", "with", "from", "after", "under", "above", "next"]

/-! ## Parse result and errors -/

/-- The per-target metadata record `ParseResult.WhoInfo` (sequence number and
the word immediately preceding the mention). -/
structure WhoInfoData where
  sequence : Nat
  previous_word : Option String
deriving DecidableEq, Repr

/-- Modelled from the spec: the `ParseResult` record of the missing
`tale/parseresult.py` (§3 Data Model): a plain immutable carrier of the
parse outcome; `who_info` is kept as the insertion-ordered key/value list. -/
structure ParseResult where
  verb : String
  qualifier : Option String
  adverb : Option String
  bodypart : Option String
  message : String
  who_order : List Entity
  who_info : List (Entity × WhoInfoData)
  args : List String
  unrecognized : List String
  unparsed : String
deriving DecidableEq, Repr

/-- Modelled from the spec: the exception kinds of the missing
`tale/errors.py` (§7), plus the built-in Python exceptions (`KeyError`,
`ValueError`, `IndexError`) that the source can let escape. -/
inductive SoulError where
  | parseError (msg : String)
  | unknownVerb (verb : String) (words : Option (List String)) (qualifier : Option String)
  | nonSoulVerb (parsed : ParseResult)
  | actionRefused (msg : String)
  | taleError (msg : String)
  | keyError
  | valueError
  | indexError
deriving DecidableEq, Repr

/-! ## The working `who_info` dictionary of `Soul.parse`

`who_info` starts as `defaultdict(ParseResult.WhoInfo)` and is re-bound to a
plain `{}` by the exclusion branch for "everyone"; `isDefault` records which
of the two it currently is. -/

structure WhoDict where
  entries : List (Entity × WhoInfoData)
  isDefault : Bool
deriving DecidableEq, Repr

def WhoDict.hasKey (d : WhoDict) (k : Entity) : Bool := d.entries.any (fun p => p.1 == k)

def WhoDict.size (d : WhoDict) : Nat := d.entries.length

/-- `who_info[k].sequence = seq; who_info[k].previous_word = pw`: on a
defaultdict a missing key is created; on a plain dict it raises `KeyError`. -/
def WhoDict.setInfo (d : WhoDict) (k : Entity) (seq : Nat) (pw : Option String) :
    Except SoulError WhoDict :=
  if d.hasKey k then
    .ok ⟨d.entries.map (fun p => if p.1 == k then (k, ⟨seq, pw⟩) else p), d.isDefault⟩
  else if d.isDefault then
    .ok ⟨d.entries ++ [(k, ⟨seq, pw⟩)], d.isDefault⟩
  else
    .error SoulError.keyError

/-- `del who_info[k]`: raises `KeyError` when the key is absent. -/
def WhoDict.delKey (d : WhoDict) (k : Entity) : Except SoulError WhoDict :=
  if d.hasKey k then
    .ok ⟨d.entries.filter (fun p => ¬(p.1 == k)), d.isDefault⟩
  else
    .error SoulError.keyError

/-- `who_order.remove(x)`: removes the first occurrence, raises `ValueError`
when absent. -/
def listRemoveFirst (l : List Entity) (x : Entity) : Except SoulError (List Entity) :=
  match l with
  | [] => .error SoulError.valueError
  | y :: ys => if y == x then .ok ys else (listRemoveFirst ys x).map (fun r => y :: r)

/-! ## Item search (`Item.search_item`, `Living.locate_item`, `Living.search_item`) -/

/-- `Item.search_item` (`base.py` line 355): first match by name, else by
alias or lowercased title. -/
def itemSearchItem (name : String) (collection : List EntityCore) : Option EntityCore :=
  let nm := pyToLower name
  match collection.find? (fun i => i.name == nm) with
  | some i => some i
  | none => collection.find? (fun i => i.aliases.contains nm || pyToLower i.title == nm)

/-- The containers-in-inventory pass of `Living.locate_item` (`base.py`
line 1028): skip containers whose inventory raises `ActionRefused`. -/
def searchContainers (name : String) : List Entity → Option EntityCore
  | [] => none
  | c :: rest =>
    if c.invAccessible then
      match itemSearchItem name c.contents with
      | some i => some i
      | none => searchContainers name rest
    else searchContainers name rest

/-- `Living.locate_item` with all three include flags true (`base.py` line
1011); the `ValueError` raised on an empty name is modelled at the call site
(`reachableE`). -/
def livingLocateItem (pl : Player) (name : String) : Option EntityCore :=
  match itemSearchItem name (pl.inventory.map Entity.core) with
  | some i => some i
  | none =>
    match itemSearchItem name (pl.location.items.map Entity.core) with
    | some i => some i
    | none => searchContainers name pl.inventory

/-- `Living.search_item` (`base.py` line 1005). -/
def livingSearchItem (pl : Player) (name : String) : Option EntityCore :=
  livingLocateItem pl name

/-- `player.search_item(who.name) or who in player.location.livings` as used by
`Soul.match_previously_parsed`; `locate_item` raises `ValueError` when the
name is empty (`base.py` line 1018), before the livings test is evaluated. -/
def reachableE (pl : Player) (who : Entity) : Except SoulError Bool :=
  if who.name = "" then .error SoulError.valueError
  else .ok ((livingSearchItem pl who.name).isSome || decide (who ∈ pl.location.livings))

/-! ## Quoted-message extraction (`Soul._quoted_message_regex`)

`re.search` with `('(?P<msg1>.*)')|("(?P<msg2>.*)")`: the match starts at the
leftmost quote character (single or double) that has a later quote of the
same kind, and the greedy `.*` spans to the last quote of that kind. -/

/-- Position of the last occurrence of `q`. -/
def lastIndexOf (cs : List Char) (q : Char) : Option Nat :=
  ((cs.enum.filter (fun p => p.2 == q)).getLast?).map Prod.fst

/-- Leftmost index holding a quote character that re-occurs later. -/
def findQuotedStart : List Char → Nat → Option (Nat × Char)
  | [], _ => none
  | c :: rest, i =>
    if (c == '\'' || c == '"') && rest.contains c then some (i, c)
    else findQuotedStart rest (i + 1)

/-- The regex search: `some (start, stop, content)` where `[start, stop)` is
the span of the whole match and `content` is the text between the quotes. -/
def quotedMessageSearch (s : String) : Option (Nat × Nat × String) :=
  match findQuotedStart s.data 0 with
  | none => none
  | some (i, q) =>
    match lastIndexOf s.data q with
    | none => none
    | some j => some (i, j + 1, ⟨(s.data.drop (i + 1)).take (j - (i + 1))⟩)

/-! ## Multi-word matching (`Soul.check_name_with_spaces`) -/

/-- The loop body of `check_name_with_spaces`: `name` is the candidate built
so far (`wordcount` words), `rest` the words not yet appended; the loop runs
`while wordcount < 6` and the append raises (a caught) `IndexError` when the
word list is exhausted. -/
def checkNameGo (all_livings all_items : List (String × Entity)) (fuel : Nat) (name : String)
    (rest : List String) (wordcount : Nat) : Option Entity × Option String × Nat :=
  match fuel with
  | 0 => (none, none, 0)
  | fuel + 1 =>
    if wordcount ≥ 6 then (none, none, 0)
    else
      match dictGet all_livings name with
      | some e => (some e, some name, wordcount)
      | none =>
        match dictGet all_items name with
        | some e => (some e, some name, wordcount)
        | none =>
          match rest with
          | [] => (none, none, 0)
          | w :: rs =>
            checkNameGo all_livings all_items fuel (name ++ " " ++ w) rs (wordcount + 1)

/-- `Soul.check_name_with_spaces` (`base.py` line 1979). All call sites in the
source guarantee `index < len(words)`; the `[]` case is unreachable there.
The structural `fuel` starts at 6 and is never exhausted, because the loop
guard `wordcount < 6` stops first (`fuel = 7 - wordcount` throughout). -/
def check_name_with_spaces (words : List String) (index : Nat)
    (all_livings all_items : List (String × Entity)) : Option Entity × Option String × Nat :=
  match words.drop index with
  | [] => (none, none, 0)
  | w :: rest => checkNameGo all_livings all_items 6 w rest 1

/-! ## Pronoun memory resolution (`Soul.match_previously_parsed`) -/

/-- The "them" validation loop (`base.py` lines 1917-1921): emitted feedback
lines are returned alongside the outcome. -/
def matchThem (pl : Player) (pronoun : String) : List Entity → List String × Except SoulError Unit
  | [] => ([], .ok ())
  | who :: rest =>
    match reachableE pl who with
    | .error e => ([], .error e)
    | .ok true => matchThem pl pronoun rest
    | .ok false =>
      (["<dim>(By '" ++ pronoun ++ "', it is assumed you meant " ++ who.title ++ ".)</>"],
       .error (SoulError.parseError (lang_capital who.subjective ++ " is no longer around.")))

/-- The "it"/"him"/"her" search loop (`base.py` lines 1927-1941). -/
def matchOther (pl : Player) (pronoun : String) :
    List Entity → List String × Except SoulError (List (Entity × String))
  | [] => ([], .error (SoulError.parseError "It is not clear who you're referring to."))
  | who :: rest =>
    match (if pronoun = "it" then pl.location.exits.find? (fun p => p.2 == who) else none) with
    | some (direction, _) =>
      (["<dim>(By '" ++ pronoun ++ "', it is assumed you mean '" ++ direction ++ "'.)</>"],
       .ok [(who, direction)])
    | none =>
      if pronoun = who.objective then
        match reachableE pl who with
        | .error e => ([], .error e)
        | .ok true =>
          (["<dim>(By '" ++ pronoun ++ "', it is assumed you mean " ++ who.title ++ ".)</>"],
           .ok [(who, who.name)])
        | .ok false =>
          (["<dim>(By '" ++ pronoun ++ "', it is assumed you meant " ++ who.title ++ ".)</>"],
           .error (SoulError.parseError (lang_capital who.subjective ++ " is no longer around.")))
      else matchOther pl pronoun rest

/-- `Soul.match_previously_parsed` (`base.py` line 1908), with `prev` the
soul's remembered previous `ParseResult`; returns the feedback lines told to
the player together with the `(who, replacement-name)` list or the error. -/
def matchPreviouslyParsed (pl : Player) (prev : ParseResult) (pronoun : String) :
    List String × Except SoulError (List (Entity × String)) :=
  if pronoun = "them" then
    match matchThem pl pronoun prev.who_order with
    | (lines, .error e) => (lines, .error e)
    | (_, .ok ()) =>
      if prev.who_order ≠ [] then
        (["<dim>(By '" ++ pronoun ++ "', it is assumed you mean: " ++
            lang_join "and" (prev.who_order.map Entity.title) ++ ".)"],
         .ok (prev.who_order.map (fun w => (w, w.name))))
      else ([], .error (SoulError.parseError "It is not clear who you're referring to."))
  else matchOther pl pronoun prev.who_order

/-! ## The token walk of `Soul.parse` -/

/-- The mutable locals of the word loop of `Soul.parse` (`base.py` lines
1630-1714), plus the lines told to the player during pronoun resolution. -/
structure WalkState where
  message : List String
  collect_message : Bool
  adverb : Option String
  bodypart : Option String
  arg_words : List String
  unrecognized_words : List String
  who_info : WhoDict
  who_order : List Entity
  who_sequence : Nat
  include_flag : Bool
  previous_word : Option String
  told : List String
deriving DecidableEq, Repr

/-- The addition path: `who_info[who].sequence = who_sequence;
who_info[who].previous_word = previous_word; who_sequence += 1;
who_order.append(who)`. -/
def WalkState.addWho (st : WalkState) (who : Entity) : Except SoulError WalkState := do
  let wi ← st.who_info.setInfo who st.who_sequence st.previous_word
  Except.ok { st with who_info := wi, who_sequence := st.who_sequence + 1,
                      who_order := st.who_order ++ [who] }

/-- The guarded removal path: `elif who in who_info: del who_info[who];
who_order.remove(who)`. -/
def WalkState.removeWho (st : WalkState) (who : Entity) : Except SoulError WalkState :=
  if st.who_info.hasKey who then do
    let wi ← st.who_info.delKey who
    let wo ← listRemoveFirst st.who_order who
    Except.ok { st with who_info := wi, who_order := wo }
  else Except.ok st

/-- Add when `include_flag`, remove (guarded) when not. -/
def WalkState.addOrRemove (st : WalkState) (who : Entity) : Except SoulError WalkState :=
  if st.include_flag then st.addWho who else st.removeWho who

/-- The pronoun loop body (`base.py` lines 1728-1737); the removal here is
unguarded (`del who_info[who]` raises `KeyError` when absent). -/
def addPronounList (flag : Bool) : WalkState → List (Entity × String) → Except SoulError WalkState
  | st, [] => Except.ok st
  | st, (who, name) :: rest => do
    let st1 ←
      if flag then st.addWho who
      else do
        let wi ← st.who_info.delKey who
        let wo ← listRemoveFirst st.who_order who
        Except.ok { st with who_info := wi, who_order := wo }
    addPronounList flag { st1 with arg_words := st1.arg_words ++ [name] } rest

/-- The "everyone" inclusion loop (`base.py` lines 1764-1769): every living in
the location except the player itself. -/
def addEveryone (pl : Player) (st : WalkState) : Except SoulError WalkState :=
  pl.location.livings.foldlM
    (fun s living => if living = pl.me then Except.ok s else s.addWho living) st

/-- Outcome of processing one word of the walk: advance by `consumed` words,
or raise with the feedback lines told so far. -/
inductive StepOut where
  | next (st : WalkState) (consumed : Nat)
  | fail (told : List String) (e : SoulError)
deriving DecidableEq, Repr

/-- One iteration of the word loop of `Soul.parse` (`base.py` lines
1715-1887). `word0` is `words[index]`, `rest1` the words after it, `words`
the whole post-strip word list (passed to `UnknownVerbException`). The
location is always present for a parsing actor, so the `if player.location:`
guard before the exit lookup is constant true. -/
def parseStep (pl : Player) (pp : Option ParseResult)
    (all_livings all_items : List (String × Entity))
    (message_verb external_verb : Bool) (verb qualifier : Option String)
    (words : List String) (word0 : String) (rest1 : List String) (st : WalkState) : StepOut :=
  if st.collect_message then
    StepOut.next { st with message := st.message ++ [word0],
                           arg_words := st.arg_words ++ [word0],
                           previous_word := some word0 } 1
  else
  let word := if ¬message_verb ∧ ¬st.collect_message then rstripComma word0 else word0
  if word = "them" ∨ word = "him" ∨ word = "her" ∨ word = "it" then
    match pp with
    | none => StepOut.fail st.told (SoulError.parseError "It is not clear who you mean.")
    | some prev =>
      match matchPreviouslyParsed pl prev word with
      | (lines, Except.error e) => StepOut.fail (st.told ++ lines) e
      | (lines, Except.ok who_list) =>
        let st1 := { st with told := st.told ++ lines }
        match addPronounList st1.include_flag st1 who_list with
        | Except.error e => StepOut.fail st1.told e
        | Except.ok st2 => StepOut.next { st2 with previous_word := none } 1
  else if word = "me" ∨ word = "myself" ∨ word = "self" then
    match st.addOrRemove pl.me with
    | Except.error e => StepOut.fail st.told e
    | Except.ok st1 =>
      StepOut.next { st1 with arg_words := st1.arg_words ++ [word], previous_word := none } 1
  else if dictHas BODY_PARTS word then
    match st.bodypart with
    | some bp =>
      StepOut.fail st.told (SoulError.parseError
        ("You can't do that both " ++ (dictGet BODY_PARTS bp).getD "" ++ " and " ++
          (dictGet BODY_PARTS word).getD "" ++ "."))
    | none => StepOut.next { st with bodypart := some word, arg_words := st.arg_words ++ [word] } 1
  else if word = "everyone" ∨ word = "everybody" ∨ word = "all" then
    if st.include_flag then
      if all_livings = [] then
        StepOut.fail st.told (SoulError.parseError "There is nobody here.")
      else
        match addEveryone pl st with
        | Except.error e => StepOut.fail st.told e
        | Except.ok st1 =>
          StepOut.next { st1 with arg_words := st1.arg_words ++ [word], previous_word := none } 1
    else
      StepOut.next { st with who_info := ⟨[], false⟩, who_order := [], who_sequence := 0,
                             arg_words := st.arg_words ++ [word], previous_word := none } 1
  else if word = "everything" then
    StepOut.fail st.told
      (SoulError.parseError "You can't do something to everything around you, be more specific.")
  else if word = "except" ∨ word = "but" then
    StepOut.next { st with include_flag := ¬st.include_flag, arg_words := st.arg_words ++ [word] } 1
  else if ADVERBS.contains word then
    match st.adverb with
    | some adv =>
      StepOut.fail st.told
        (SoulError.parseError ("You can't do that both " ++ adv ++ " and " ++ word ++ "."))
    | none => StepOut.next { st with adverb := some word, arg_words := st.arg_words ++ [word] } 1
  else
    match dictGet all_livings word with
    | some living =>
      match st.addOrRemove living with
      | Except.error e => StepOut.fail st.told e
      | Except.ok st1 =>
        StepOut.next { st1 with arg_words := st1.arg_words ++ [word], previous_word := none } 1
    | none =>
    match dictGet all_items word with
    | some item =>
      match st.addOrRemove item with
      | Except.error e => StepOut.fail st.told e
      | Except.ok st1 =>
        StepOut.next { st1 with arg_words := st1.arg_words ++ [word], previous_word := none } 1
    | none =>
    match check_name_with_spaces (word0 :: rest1) 0 pl.location.exits [] with
    | (some exitE, exit_name, wc) =>
      match st.addWho exitE with
      | Except.error e => StepOut.fail st.told e
      | Except.ok st1 =>
        StepOut.next { st1 with arg_words := st1.arg_words ++ [exit_name.getD ""],
                                previous_word := none } wc
    | (none, _, _) =>
    match check_name_with_spaces (word0 :: rest1) 0 all_livings all_items with
    | (some item, full_name, wc) =>
      match st.addOrRemove item with
      | Except.error e => StepOut.fail st.told e
      | Except.ok st1 =>
        StepOut.next { st1 with arg_words := st1.arg_words ++ [full_name.getD ""],
                                previous_word := none } wc
    | (none, _, _) =>
    if message_verb ∧ st.message = [] then
      StepOut.next { st with collect_message := true, message := [word],
                             arg_words := st.arg_words ++ [word] } 1
    else if ¬ SKIP_WORDS.contains word then
      match (if st.who_order = [] then
               (all_livings.map Prod.fst).find? (fun name => pyStartsWith name word)
             else none) with
      | some name => StepOut.fail st.told (SoulError.parseError ("Perhaps you meant " ++ name ++ "?"))
      | none =>
      match (if st.who_order = [] then
               (all_items.map Prod.fst).find? (fun name => pyStartsWith name word)
             else none) with
      | some name => StepOut.fail st.told (SoulError.parseError ("Perhaps you meant " ++ name ++ "?"))
      | none =>
      let tailOut : StepOut :=
        if external_verb then
          StepOut.next { st with arg_words := st.arg_words ++ [word],
                                 unrecognized_words := st.unrecognized_words ++ [word],
                                 previous_word := some word } 1
        else if dictHas VERBS word ∨ dictHas ACTION_QUALIFIERS word ∨ dictHas BODY_PARTS word then
          StepOut.fail st.told
            (SoulError.parseError ("The word " ++ word ++ " makes no sense at that location."))
        else
          let base := "It's not clear what you mean by '" ++ word ++ "'."
          let msg := match word.data with
            | [] => base
            | c :: _ =>
              if c.isUpper then base ++ " Just type in lowercase ('" ++ pyToLower word ++ "')."
              else base
          StepOut.fail st.told (SoulError.parseError msg)
      if ¬external_verb then
        match verb with
        | none => StepOut.fail st.told (SoulError.unknownVerb word (some words) qualifier)
        | some _ =>
          let advs := adverbByPre word
          if advs.length = 1 then
            let adv := advs.headD ""
            match st.adverb with
            | some a =>
              StepOut.fail st.told
                (SoulError.parseError ("You can't do that both " ++ a ++ " and " ++ adv ++ "."))
            | none =>
              StepOut.next { st with adverb := some adv, arg_words := st.arg_words ++ [adv],
                                     previous_word := some adv } 1
          else if advs.length > 1 then
            StepOut.fail st.told
              (SoulError.parseError ("What adverb did you mean: " ++ lang_join "or" advs ++ "?"))
          else tailOut
      else tailOut
    else
      StepOut.next { st with previous_word := some word } 1

/-- The word loop of `Soul.parse`: multi-word matches advance the enumerator
by the extra words consumed; on an exception the feedback lines told so far
are preserved. `fuel` bounds the number of iterations structurally; every
step consumes at least one word, so any `fuel ≥` the word-list length gives
the loop's behaviour (the `0` case then coincides with the `[]` case). -/
def parseLoop (pl : Player) (pp : Option ParseResult)
    (all_livings all_items : List (String × Entity))
    (message_verb external_verb : Bool) (verb qualifier : Option String)
    (words : List String) :
    Nat → List String → WalkState → Except (List String × SoulError) WalkState
  | _, [], st => Except.ok st
  | 0, _, st => Except.ok st
  | fuel + 1, word0 :: rest1, st =>
    match parseStep pl pp all_livings all_items message_verb external_verb verb qualifier
        words word0 rest1 st with
    | StepOut.fail told e => Except.error (told, e)
    | StepOut.next st' k =>
      parseLoop pl pp all_livings all_items message_verb external_verb verb qualifier
        words fuel (rest1.drop (k - 1)) st'

/-! ## `Soul.parse` -/

/-- The `all_livings` dictionary (`base.py` lines 1701-1704): livings in the
room (including the player), by name and every alias. -/
def buildLivingsDict (pl : Player) : List (String × Entity) :=
  pl.location.livings.foldl
    (fun d living =>
      living.aliases.foldl (fun d a => dictInsert d a living) (dictInsert d living.name living)) []

/-- The `all_items` dictionary (`base.py` lines 1705-1712): items in the room,
then the player's inventory, by name and every alias. -/
def buildItemsDict (pl : Player) : List (String × Entity) :=
  let d1 := pl.location.items.foldl
    (fun d item =>
      item.aliases.foldl (fun d a => dictInsert d a item) (dictInsert d item.name item)) []
  pl.inventory.foldl
    (fun d item =>
      item.aliases.foldl (fun d a => dictInsert d a item) (dictInsert d item.name item)) d1

/-- The final `ParseResult` construction of `Soul.parse` (`base.py` lines
1889-1903): the default-verb fallback when no verb was identified, then the
record built from the walk's final state. -/
def assembleResult (verb qualifier : Option String) (words3 : List String) (unparsed3 : String)
    (stF : WalkState) : List String × Except SoulError ParseResult :=
  let message_text := joinWith " " stF.message
  match verb with
  | some v =>
    (stF.told, Except.ok
      { verb := v, qualifier := qualifier, adverb := stF.adverb,
        bodypart := stF.bodypart, message := message_text, who_order := stF.who_order,
        who_info := stF.who_info.entries, args := stF.arg_words,
        unrecognized := stF.unrecognized_words, unparsed := unparsed3 })
  | none =>
    match stF.who_order with
    | [only] =>
      (stF.told, Except.ok
        { verb := only.default_verb.getD "examine", qualifier := qualifier, adverb := stF.adverb,
          bodypart := stF.bodypart, message := message_text, who_order := stF.who_order,
          who_info := stF.who_info.entries, args := stF.arg_words,
          unrecognized := stF.unrecognized_words, unparsed := unparsed3 })
    | _ =>
      (stF.told,
       Except.error (SoulError.unknownVerb (words3.headD "") (some words3) qualifier))

/-- The tail of `Soul.parse` (`base.py` lines 1718-1903): run the word walk and
assemble the outcome. -/
def finishParse (pl : Player) (pp : Option ParseResult)
    (al ai : List (String × Entity)) (mv ev : Bool) (vb q : Option String)
    (words3 : List String) (unparsed3 : String) (st0 : WalkState) :
    List String × Except SoulError ParseResult :=
  match parseLoop pl pp al ai mv ev vb q words3 words3.length words3 st0 with
  | Except.error (told, e) => (told, Except.error e)
  | Except.ok stF => assembleResult vb q words3 unparsed3 stF

/-- `Soul.parse` (`base.py` line 1627): parses `cmd0` against the snapshot
`pl` with the soul memory `pp`; returns the lines told to the player and the
`ParseResult` or the exception. -/
def soulParse (pl : Player) (pp : Option ParseResult) (external_verbs : List String)
    (cmd0 : String) : List String × Except SoulError ParseResult :=
  let unparsed0 := cmd0
  let qm := quotedMessageSearch cmd0
  let message0 : List String :=
    match qm with
    | some (_, _, content) => [pyStrip content]
    | none => []
  let cmd : String :=
    match qm with
    | some (s, e, _) => ⟨cmd0.data.take s ++ cmd0.data.drop e⟩
    | none => cmd0
  if cmd = "" then ([], Except.error (SoulError.parseError "What?"))
  else
    match pySplit cmd with
    | [] => ([], Except.error SoulError.indexError)
    | w0 :: ws0 =>
      let hasQual := dictHas ACTION_QUALIFIERS w0
      let qualifier := if hasQual then some (if w0 = "dont" then "don't" else w0) else none
      let words1 := if hasQual then ws0 else w0 :: ws0
      let unparsed1 := if hasQual then pyLstrip (pyDrop unparsed0 w0.length) else unparsed0
      let (words2, unparsed2) :=
        match words1 with
        | w :: rest =>
          if SKIP_WORDS.contains w then (rest, pyLstrip (pyDrop unparsed1 w.length))
          else (words1, unparsed1)
        | [] => (words1, unparsed1)
      match words2 with
      | [] => ([], Except.error (SoulError.parseError "What?"))
      | v0 :: vrest =>
        let idStep : Except SoulError (Option String × Bool × Bool × List String) :=
          if external_verbs.contains v0 then
            Except.ok (some v0, true, false, vrest)
          else
            match dictGet VERBS v0 with
            | some vd =>
              Except.ok (some v0, false,
                containsSub (vd.t 2) "\nMSG" || containsSub (vd.t 2) "\nWHAT", vrest)
            | none =>
              if pl.location.exits ≠ [] then
                let mv := MOVEMENT_VERBS.contains v0
                if mv ∧ vrest = [] then
                  Except.error (SoulError.parseError (lang_capital v0 ++ " where?"))
                else
                  let wordsM := if mv then vrest else v0 :: vrest
                  match check_name_with_spaces wordsM 0 pl.location.exits [] with
                  | (some exitE, exit_name, wc) =>
                    if wc ≠ wordsM.length then
                      Except.error (SoulError.parseError "What do you want to do with that?")
                    else
                      Except.error (SoulError.nonSoulVerb
                        { verb := exit_name.getD "", qualifier := qualifier, adverb := none,
                          bodypart := none, message := "", who_order := [exitE], who_info := [],
                          args := [], unrecognized := [],
                          unparsed := pyLstrip (pyDrop unparsed2 (exit_name.getD "").length) })
                  | (none, _, _) =>
                    if mv then Except.error (SoulError.parseError ("You can't " ++ v0 ++ " there."))
                    else Except.ok (none, false, false, v0 :: vrest)
              else Except.ok (none, false, false, v0 :: vrest)
        match idStep with
        | Except.error e => ([], Except.error e)
        | Except.ok (verb, external_verb, message_verb, words3) =>
          let unparsed3 := match verb with
            | some v => pyLstrip (pyDrop unparsed2 v.length)
            | none => unparsed2
          let all_livings := buildLivingsDict pl
          let all_items := buildItemsDict pl
          let st0 : WalkState :=
            { message := message0, collect_message := false, adverb := none, bodypart := none,
              arg_words := [], unrecognized_words := [], who_info := ⟨[], true⟩, who_order := [],
              who_sequence := 0, include_flag := true, previous_word := none, told := [] }
          finishParse pl pp all_livings all_items message_verb external_verb verb qualifier
            words3 unparsed3 st0

/-! ## `Living.parse`, the pronoun-memory cell and `remember_previous_parse` -/

/-- The parse-related state of a `Living`: `previous_commandline`,
`_previous_parse` and the soul's one-slot memory `__previously_parsed`
(read by pronoun resolution). -/
structure LivingState where
  previous_commandline : Option String
  previousParse : Option ParseResult
  soulMemory : Option ParseResult
deriving DecidableEq, Repr

/-- `Soul.remember_previous_parse` (`base.py` line 1905). -/
def soulRememberPreviousParse (st : LivingState) (parsed : ParseResult) : LivingState :=
  { st with soulMemory := some parsed }

/-- `Living.remember_previous_parse` (`base.py` line 891): copies
`_previous_parse` into the soul's memory slot. -/
def livingRememberPreviousParse (st : LivingState) : LivingState :=
  { st with soulMemory := st.previousParse }

/-- The body of `Living.parse` after the "again" substitution (`base.py`
lines 874-884): store the command line, run the soul parse, then the
non-soul-verb redirections and the socialize-target validation. -/
def livingParseCore (pl : Player) (external_verbs : List String) (st : LivingState)
    (commandline : String) (told0 : List String) :
    LivingState × List String × Except SoulError ParseResult :=
  let st1 := { st with previous_commandline := some commandline }
  match soulParse pl st.soulMemory external_verbs commandline with
  | (told, Except.error e) => (st1, told0 ++ told, Except.error e)
  | (told, Except.ok parsed) =>
    let st2 := { st1 with previousParse := some parsed }
    let told := told0 ++ told
    if external_verbs ≠ [] ∧ parsed.verb ∈ external_verbs then
      (st2, told, Except.error (SoulError.nonSoulVerb parsed))
    else if ¬ NONLIVING_OK_VERBS.contains parsed.verb ∧
        ¬ (parsed.who_order.all (fun who => who.kind == EKind.living)) then
      (st2, told, Except.error (SoulError.nonSoulVerb parsed))
    else if parsed.who_info.any (fun p => p.1.kind == EKind.exitKind) then
      (st2, told, Except.error (SoulError.parseError "That doesn't make much sense."))
    else
      (st2, told, Except.ok parsed)

/-- `Living.parse` (`base.py` line 865), including the "again" special case.
`if self.previous_commandline:` is Python truthiness: both `None` and the
falsy empty string take the `ActionRefused` branch. -/
def livingParse (pl : Player) (external_verbs : List String) (st : LivingState)
    (commandline : String) : LivingState × List String × Except SoulError ParseResult :=
  if commandline = "again" then
    match st.previous_commandline with
    | some prev =>
      if prev = "" then
        (st, [], Except.error (SoulError.actionRefused "Can't repeat your previous action."))
      else
        livingParseCore pl external_verbs st prev ["<dim>(repeat: " ++ prev ++ ")</>"]
    | none => (st, [], Except.error (SoulError.actionRefused "Can't repeat your previous action."))
  else livingParseCore pl external_verbs st commandline []

/-! ## Message rendering (`Soul.process_verb_parsed`) -/

/-- `Soul.spacify` (`base.py` line 1957). -/
def spacify (s : String) : String := if s ≠ "" then " " ++ lstripSpaceTab s else ""

/-- `Soul.who_replacement` (`base.py` line 1961). -/
def who_replacement (actor target : Entity) (observer : Option Entity) : String :=
  if target = actor then
    (if observer = some actor then "yourself" else actor.objective ++ "self")
  else
    (if observer = some target then "you" else target.title)

/-- `Soul.poss_replacement` (`base.py` line 1943). -/
def poss_replacement (actor target : Entity) (observer : Option Entity) : String :=
  if target = actor then
    (if observer = some actor then "your own" else actor.possessive ++ " own")
  else
    (if observer = some target then "your" else lang_possessive target.title)

/-- `Soul.check_person` (`base.py` line 1974). -/
def check_person (action : String) (who : List Entity) : Bool :=
  !(who.isEmpty && (containsSub action "\nWHO" || containsSub action "\nPOSS"))

/-- The inner `result_messages` of `process_verb_parsed` (`base.py` lines
1506-1559): qualifier wrapping, WHO/YOUR/MY substitution per perspective,
POSS/IS/SUBJ agreement, final capitalization and full stops, and the
remaining-target set. An unknown qualifier raises `KeyError` in the source
(`ACTION_QUALIFIERS[parsed.qualifier]`). -/
def result_messages (pl : Player) (parsed : ParseResult) (action0 action_room0 : String) :
    Except SoulError (List Entity × String × String × String) := do
  let action := pyStrip action0
  let action_room := pyStrip action_room0
  let (action, action_room) ←
    match parsed.qualifier with
    | some q =>
      match dictGet ACTION_QUALIFIERS q with
      | some qd =>
        Except.ok (pyReplace qd.qual_action "%s" action,
          if qd.use_room_default then pyReplace qd.qual_room "%s" action_room
          else pyReplace qd.qual_room "%s" action)
      | none => Except.error SoulError.keyError
    | none => Except.ok (action, action_room)
  let targetnames_p := parsed.who_order.map (fun t => who_replacement pl.me t (some pl.me))
  let player_msg := pyReplace action " \nWHO" (" " ++ lang_join "and" targetnames_p)
  let player_msg := pyReplace player_msg " \nYOUR" " your"
  let player_msg := pyReplace player_msg " \nMY" " your"
  let targetnames_r := parsed.who_order.map (fun t => who_replacement pl.me t none)
  let room_msg := pyReplace action_room " \nWHO" (" " ++ lang_join "and" targetnames_r)
  let room_msg := pyReplace room_msg " \nYOUR" (" " ++ pl.me.possessive)
  let room_msg := pyReplace room_msg " \nMY" (" " ++ pl.me.objective)
  let target_msg := pyReplace action_room " \nWHO" " you"
  let target_msg := pyReplace target_msg " \nYOUR" (" " ++ pl.me.possessive)
  let target_msg := pyReplace target_msg " \nPOSS" " your"
  let target_msg := pyReplace target_msg " \nIS" " are"
  let target_msg := pyReplace target_msg " \nSUBJ" " you"
  let target_msg := pyReplace target_msg " \nMY" (" " ++ pl.me.objective)
  let (player_msg, room_msg) :=
    match parsed.who_order with
    | [only] =>
      let pm := pyReplace player_msg " \nIS" " is"
      let pm := pyReplace pm " \nSUBJ" (" " ++ only.subjective)
      let pm := pyReplace pm " \nPOSS" (" " ++ poss_replacement pl.me only (some pl.me))
      let rm := pyReplace room_msg " \nIS" " is"
      let rm := pyReplace rm " \nSUBJ" (" " ++ only.subjective)
      let rm := pyReplace rm " \nPOSS" (" " ++ poss_replacement pl.me only none)
      (pm, rm)
    | _ =>
      let tn_p := lang_join "and"
        (parsed.who_order.map (fun l => poss_replacement pl.me l (some pl.me)))
      let tn_r := lang_join "and" (parsed.who_order.map (fun l => poss_replacement pl.me l none))
      let pm := pyReplace player_msg " \nIS" " are"
      let pm := pyReplace pm " \nSUBJ" " they"
      let pm := pyReplace pm " \nPOSS" (" " ++ lang_possessive tn_p)
      let rm := pyReplace room_msg " \nIS" " are"
      let rm := pyReplace rm " \nSUBJ" " they"
      let rm := pyReplace rm " \nPOSS" (" " ++ lang_possessive tn_r)
      (pm, rm)
  let player_msg := lang_fullstop ("You " ++ player_msg)
  let room_msg := lang_capital (lang_fullstop (pl.me.title ++ " " ++ room_msg))
  let target_msg := lang_capital (lang_fullstop (pl.me.title ++ " " ++ target_msg))
  let whoKeys := parsed.who_info.map Prod.fst
  let whof := if pl.me ∈ whoKeys then whoKeys.filter (fun w => w ≠ pl.me) else whoKeys
  Except.ok (whof, player_msg, room_msg, target_msg)

/-- The shared tail of the non-DEUX/QUAD verb kinds (`base.py` lines
1610-1625): the `\nAT` expansion, the person check, the remaining
substitutions and the `$` verb-stem marker. -/
def processSimpleTail (pl : Player) (parsed : ParseResult) (verbdata : VerbData)
    (whereS message msg how action0 : String) :
    Except SoulError (List Entity × String × String × String) := do
  let action :=
    if parsed.who_info ≠ [] ∧ verbdata.len > 3 then
      pyReplace action0 " \nAT" (spacify (verbdata.t 3) ++ " \nWHO")
    else pyReplace action0 " \nAT" ""
  if ¬ check_person action parsed.who_order then
    Except.error (SoulError.parseError ("The verb " ++ parsed.verb ++ " needs a person."))
  else
    let action := pyReplace action " \nHOW" how
    let action := pyReplace action " \nWHERE" whereS
    let action := pyReplace action " \nWHAT" message
    let action := pyReplace action " \nMSG" msg
    let action_room := action
    let action := pyReplace action "$" ""
    let action_room := pyReplace action_room "$" "s"
    result_messages pl parsed action action_room

/-- The `where` computation of `process_verb_parsed` (`base.py` lines
1499-1503): the body part's display phrase (a `KeyError` for a body part
missing from the table), else the verb table's own where-clause, else empty. -/
def whereClause (verbdata : VerbData) (parsed : ParseResult) : Except SoulError String :=
  if parsed.bodypart.getD "" ≠ "" then
    match dictGet BODY_PARTS (parsed.bodypart.getD "") with
    | some w => Except.ok (" " ++ w)
    | none => Except.error SoulError.keyError
  else if (match verbdata.prev with
        | some l => decide (l.length > 2)
        | none => false) = true ∧ (verbdata.prev.getD []).getD 2 "" ≠ "" then
    Except.ok (" " ++ (verbdata.prev.getD []).getD 2 "")
  else Except.ok ""

/-- `Soul.process_verb_parsed` (`base.py` line 1467). -/
def processVerbParsed (pl : Player) (parsed : ParseResult) :
    Except SoulError (List Entity × String × String × String) := do
  match dictGet VERBS parsed.verb with
  | none => Except.error (SoulError.unknownVerb parsed.verb none parsed.qualifier)
  | some verbdata =>
    let message0 := parsed.message
    let vtype := verbdata.vtype
    let message1 :=
      if message0 = "" ∧ (match verbdata.prev with
          | some l => decide (l.length > 1)
          | none => false) = true then
        (verbdata.prev.getD []).getD 1 ""
      else message0
    let (message, msg) :=
      if message1 ≠ "" then
        (if pyStartsWith message1 "'" then
          let m := spacify (pyDrop message1 1)
          (m, m)
        else (" " ++ message1, " '" ++ message1 ++ "'"))
      else ("", "")
    let adverb0 := parsed.adverb.getD ""
    let adverb := if adverb0 = "" then
        (match verbdata.prev with | some (x :: _) => x | _ => "")
      else adverb0
    let whereS ← whereClause verbdata parsed
    let how := spacify adverb
    match vtype with
    | VType.DEUX =>
      let action := verbdata.t 2
      let action_room := verbdata.t 3
      if ¬ check_person action parsed.who_order then
        Except.error (SoulError.parseError ("The verb " ++ parsed.verb ++ " needs a person."))
      else
        let action := pyReplace action " \nWHERE" whereS
        let action_room := pyReplace action_room " \nWHERE" whereS
        let action := pyReplace action " \nWHAT" message
        let action := pyReplace action " \nMSG" msg
        let action_room := pyReplace action_room " \nWHAT" message
        let action_room := pyReplace action_room " \nMSG" msg
        let action := pyReplace action " \nHOW" how
        let action_room := pyReplace action_room " \nHOW" how
        result_messages pl parsed action action_room
    | VType.QUAD =>
      let (action, action_room) :=
        if parsed.who_info ≠ [] then (verbdata.t 4, verbdata.t 5)
        else (verbdata.t 2, verbdata.t 3)
      let action := pyReplace action " \nWHERE" whereS
      let action_room := pyReplace action_room " \nWHERE" whereS
      let action := pyReplace action " \nWHAT" message
      let action := pyReplace action " \nMSG" msg
      let action_room := pyReplace action_room " \nWHAT" message
      let action_room := pyReplace action_room " \nMSG" msg
      let action := pyReplace action " \nHOW" how
      let action_room := pyReplace action_room " \nHOW" how
      result_messages pl parsed action action_room
    | VType.FULL => Except.error (SoulError.taleError "vtype verbdefs.FULL")
    | VType.DEFA => processSimpleTail pl parsed verbdata whereS message msg how (parsed.verb ++ "$ \nHOW \nAT")
    | VType.PREV => processSimpleTail pl parsed verbdata whereS message msg how (parsed.verb ++ "$" ++ spacify (verbdata.t 2) ++ " \nWHO \nHOW")
    | VType.PHYS => processSimpleTail pl parsed verbdata whereS message msg how (parsed.verb ++ "$" ++ spacify (verbdata.t 2) ++ " \nWHO \nHOW \nWHERE")
    | VType.SHRT => processSimpleTail pl parsed verbdata whereS message msg how (parsed.verb ++ "$" ++ spacify (verbdata.t 2) ++ " \nHOW")
    | VType.PERS => processSimpleTail pl parsed verbdata whereS message msg how (if parsed.who_order ≠ [] then verbdata.t 3 else verbdata.t 2)
    | VType.SIMP => processSimpleTail pl parsed verbdata whereS message msg how (verbdata.t 2)

/-! ## A concrete candidate snapshot for the documented examples -/

/-- A living with no aliases, empty contents, accessible inventory. -/
def mkLiving (name title subj poss obj : String) : Entity :=
  ⟨⟨name, [], title, subj, poss, obj, some "examine", EKind.living⟩, [], true⟩

def aliceE : Entity := mkLiving "alice" "Alice" "she" "her" "her"
def bobE : Entity := mkLiving "bob" "Bob" "he" "his" "him"
def carolE : Entity := mkLiving "carol" "Carol" "she" "her" "her"
def daveE : Entity := mkLiving "dave" "Dave" "he" "his" "him"

/-- An exit entity for a direction. -/
def mkExit (name : String) : Entity :=
  ⟨⟨name, [], name, "it", "its", "it", none, EKind.exitKind⟩, [], true⟩

def northE : Entity := mkExit "north"
def northGateE : Entity := mkExit "north gate"

/-- The room with alice, bob, carol and dave, no items, no exits. -/
def room0 : Location := ⟨[aliceE, bobE, carolE, daveE], [], []⟩

def davePlayer : Player := ⟨daveE, [], room0⟩
def alicePlayer : Player := ⟨aliceE, [], room0⟩

/-- The same room with the two exits "north" and "north gate". -/
def roomExits : Location := ⟨[aliceE, bobE, carolE, daveE], [], [("north", northE), ("north gate", northGateE)]⟩

def davePlayerExits : Player := ⟨daveE, [], roomExits⟩

/-! ## The spec-side multi-word matching algorithm (for claim C2) -/

/-- Python `" ".join(l)`. -/
def joinWords (l : List String) : String := joinWith " " l

/-- Modelled from the spec (§4.4 "Multi-word matching algorithm"), with the
number of candidate lengths still to try as `budget`: try the space-joined
candidate of `k` words as a key (livings before items), return on the first
hit (shortest match wins); if absent extend by one word and retry; stop when
the word list is exhausted or the budget is spent. -/
def specMultiwordGo (all_livings all_items : List (String × Entity)) (ws : List String)
    (k budget : Nat) : Option (Entity × String × Nat) :=
  match budget with
  | 0 => none
  | budget + 1 =>
    if k > ws.length then none
    else
      let name := joinWords (ws.take k)
      match dictGet all_livings name with
      | some e => some (e, name, k)
      | none =>
        match dictGet all_items name with
        | some e => some (e, name, k)
        | none => specMultiwordGo all_livings all_items ws (k + 1) budget

/-- Modelled from the spec: the multi-word matching algorithm, trying
candidates of 1 up to `cap` total words, shortest first. -/
def specMultiword (all_livings all_items : List (String × Entity)) (ws : List String)
    (cap : Nat) : Option (Entity × String × Nat) :=
  specMultiwordGo all_livings all_items ws 1 cap

/-! ## Claim theorems -/

/-- C4: with livings alice, bob, carol present in actor dave's location,
`parse("wave at everyone except bob")` succeeds and its resolved target set
is exactly alice and carol: "everyone" adds every living in the location
except the actor, "except" toggles to exclusion, and the following matched
name removes bob from the accumulated set. -/
theorem C4_everyone_except_bob :
    ((soulParse davePlayer none [] "wave at everyone except bob").2.toOption.map
      (fun p => (p.verb, p.who_order, p.who_info.map Prod.fst))) =
      some ("wave", [aliceE, carolE], [aliceE, carolE]) := by decide

/-- C5: quoted-message extraction takes the first run delimited by a matching
pair of single or double quotes, greedily spanning to the last matching quote
of that kind, strips and trims it into `message`, and removes the quoted span
before tokenization: `parse('wave "hello there" at bob')` yields
`message = "hello there"` and the quote characters never appear in `args`
(which is exactly `["bob"]`); the third conjunct shows the greedy span to the
last quote of the same kind. -/
theorem C5_quoted_message_extraction :
    quotedMessageSearch "wave \"hello there\" at bob" = some (5, 18, "hello there") ∧
    ((soulParse davePlayer none [] "wave \"hello there\" at bob").2.toOption.map
      (fun p => (p.message, p.args))) = some ("hello there", ["bob"]) ∧
    quotedMessageSearch "say 'a' then 'b' end" = some (4, 16, "a' then 'b") :=
  ⟨by decide, by decide, by decide⟩

/-- The remembered previous parse of alice after a successful
`parse("smile at bob")` (the memory cell is overwritten by the successful
parse only). -/
def c8prev : Option ParseResult := (soulParse alicePlayer none [] "smile at bob").2.toOption

/-- C8: after `parse("smile at bob")` succeeds for actor alice and becomes
alice's remembered previous parse, a subsequent `parse("wave at him")`
resolves "him" to bob, reproducing `who_order = [bob]`, with bob's name
appended to `args` in place of the pronoun. -/
theorem C8_pronoun_round_trip :
    ((soulParse alicePlayer none [] "smile at bob").2.toOption.map (fun p => p.who_order))
      = some [bobE] ∧
    ((soulParse alicePlayer c8prev [] "wave at him").2.toOption.map
      (fun q => (q.who_order, q.args))) = some ([bobE], ["bob"]) :=
  ⟨by decide, by decide⟩

/-- C1 counterexample: naming the same living twice in one command
(`"wave bob bob"`) produces a successful parse whose `who_order` is
`[bob, bob]` — a repeated entity — while `who_info` has a single key, so
`len(who_order) ≠ len(who_info)`: the claimed invariant fails. -/
theorem C1_counterexample :
    ((soulParse davePlayer none [] "wave bob bob").2.toOption.map
      (fun p => (p.who_order, p.who_info.map Prod.fst, p.who_info.length))) =
      some ([bobE, bobE], [bobE], 1) ∧
    ¬ ([bobE, bobE] : List Entity).Nodup :=
  ⟨by decide, by decide⟩

/-- C2 counterexample: the loop of `check_name_with_spaces` runs
`while wordcount < 6`, so a candidate of exactly 6 words is built but never
tested: with a dictionary whose only key is the 6-word name "a b c d e f",
the code reports no match although that candidate is a key (and the
spec-side algorithm with cap 6 finds it). -/
theorem C2_counterexample :
    check_name_with_spaces ["a", "b", "c", "d", "e", "f"] 0 [("a b c d e f", northE)] []
      = (none, none, 0) ∧
    dictGet [("a b c d e f", northE)] "a b c d e f" = some northE ∧
    specMultiword [("a b c d e f", northE)] [] ["a", "b", "c", "d", "e", "f"] 6
      = some (northE, "a b c d e f", 6) :=
  ⟨by decide, by decide, by decide⟩

/-- C10: `Living.parse` with the exact command line "again" never parses the
word "again" itself: with no stored previous command line — `None`, or the
falsy empty string (`if self.previous_commandline:` is Python truthiness) —
it raises `ActionRefused("Can't repeat your previous action.")`; with a
stored nonempty line it tells the repeat notice and proceeds exactly as
parsing that stored line. -/
theorem C10_again_substitution (pl : Player) (evs : List String) (st : LivingState) :
    ((st.previous_commandline = none ∨ st.previous_commandline = some "") →
      livingParse pl evs st "again" =
        (st, [], Except.error (SoulError.actionRefused "Can't repeat your previous action."))) ∧
    (∀ prev, st.previous_commandline = some prev → prev ≠ "" →
      livingParse pl evs st "again" =
        livingParseCore pl evs st prev ["<dim>(repeat: " ++ prev ++ ")</>"]) := by
  constructor
  · intro h
    unfold livingParse
    rcases h with h | h <;> simp [h]
  · intro prev h hne
    unfold livingParse
    simp [h, hne]

/-- Witness for C10: a stored nonempty previous command is substituted; a
stored empty one (falsy) is refused. -/
theorem C10_again_substitution_witness :
    (livingParse davePlayer [] ⟨some "smile", none, none⟩ "again" =
      livingParseCore davePlayer [] ⟨some "smile", none, none⟩ "smile"
        ["<dim>(repeat: smile)</>"]) ∧
    (livingParse davePlayer [] ⟨some "", none, none⟩ "again" =
      (⟨some "", none, none⟩, [],
        Except.error (SoulError.actionRefused "Can't repeat your previous action."))) :=
  ⟨(C10_again_substitution davePlayer [] ⟨some "smile", none, none⟩).2 "smile" rfl (by decide),
   (C10_again_substitution davePlayer [] ⟨some "", none, none⟩).1 (Or.inr rfl)⟩

/-- `livingParseCore` never writes the soul's memory slot. -/
lemma livingParseCore_soulMemory (pl : Player) (evs : List String) (st : LivingState)
    (cmd : String) (told0 : List String) :
    ((livingParseCore pl evs st cmd told0).1).soulMemory = st.soulMemory := by
  unfold livingParseCore
  rcases h : soulParse pl st.soulMemory evs cmd with ⟨told, r⟩
  cases r with
  | error e => rfl
  | ok parsed =>
    simp only
    split
    · rfl
    · split
      · rfl
      · split <;> rfl

/-- `livingParse` never writes the soul's memory slot. -/
lemma livingParse_soulMemory (pl : Player) (evs : List String) (st : LivingState)
    (cmd : String) :
    ((livingParse pl evs st cmd).1).soulMemory = st.soulMemory := by
  unfold livingParse
  split
  · split
    · split
      · rfl
      · exact livingParseCore_soulMemory ..
    · rfl
  · exact livingParseCore_soulMemory ..

/-- C3: for every actor and every parse attempt, the one-slot pronoun-memory
cell (`Soul.__previously_parsed`, read by the next pronoun resolution) is left
unchanged by `Living.parse` — in particular by every failing parse; the cell
is written only by `remember_previous_parse`, which copies `_previous_parse`,
and `_previous_parse` is itself left unchanged whenever the soul parse fails,
so only a successful, fully-constructed ParseResult can reach the cell. -/
theorem C3_memory_cell_only_successful_updates :
    (∀ (pl : Player) (evs : List String) (st : LivingState) (cmd : String),
      ((livingParse pl evs st cmd).1).soulMemory = st.soulMemory) ∧
    (∀ st : LivingState,
      livingRememberPreviousParse st = { st with soulMemory := st.previousParse }) ∧
    (∀ (pl : Player) (evs : List String) (st : LivingState) (cmd : String)
        (told : List String) (e : SoulError),
      soulParse pl st.soulMemory evs cmd = (told, Except.error e) →
      ∀ told0, ((livingParseCore pl evs st cmd told0).1).previousParse = st.previousParse) := by
  refine ⟨fun pl evs st cmd => livingParse_soulMemory pl evs st cmd, fun st => rfl, ?_⟩
  intro pl evs st cmd told e h told0
  unfold livingParseCore
  rw [h]

/-- Witness for C3: a failing parse ("xyzzy" is no known verb) leaves both the
memory cell and the staged previous-parse slot of a fresh actor unchanged. -/
theorem C3_memory_cell_only_successful_updates_witness :
    ((livingParse davePlayer [] ⟨none, none, none⟩ "xyzzy").1).soulMemory = none ∧
    ((livingParseCore davePlayer [] ⟨none, none, none⟩ "xyzzy" []).1).previousParse = none := by
  constructor
  · exact C3_memory_cell_only_successful_updates.1 davePlayer [] ⟨none, none, none⟩ "xyzzy"
  · exact C3_memory_cell_only_successful_updates.2.2 davePlayer [] ⟨none, none, none⟩ "xyzzy"
      [] (SoulError.unknownVerb "xyzzy" (some ["xyzzy"]) none) (by rfl) []

/-- The reachability test of `match_previously_parsed` as a Bool:
`player.search_item(who.name) or who in player.location.livings`. -/
def reachableB (pl : Player) (who : Entity) : Bool :=
  (livingSearchItem pl who.name).isSome || decide (who ∈ pl.location.livings)

lemma reachableE_eq_ok (pl : Player) (who : Entity) (h : who.name ≠ "") :
    reachableE pl who = Except.ok (reachableB pl who) := by
  unfold reachableE reachableB
  simp [h]

lemma matchThem_all_reachable (pl : Player) (pronoun : String) (l : List Entity)
    (hn : ∀ who ∈ l, who.name ≠ "") (hr : ∀ who ∈ l, reachableB pl who = true) :
    matchThem pl pronoun l = ([], Except.ok ()) := by
  induction l with
  | nil => rfl
  | cons w rest ih =>
    unfold matchThem
    rw [reachableE_eq_ok pl w (hn w (List.mem_cons_self w rest)),
        hr w (List.mem_cons_self w rest)]
    exact ih (fun who hw => hn who (List.mem_cons_of_mem w hw))
      (fun who hw => hr who (List.mem_cons_of_mem w hw))

lemma matchThem_first_unreachable (pl : Player) (pronoun : String) (l : List Entity)
    (hn : ∀ who ∈ l, who.name ≠ "") (who : Entity)
    (hfind : l.find? (fun w => !(reachableB pl w)) = some who) :
    matchThem pl pronoun l =
      (["<dim>(By '" ++ pronoun ++ "', it is assumed you meant " ++ who.title ++ ".)</>"],
       Except.error (SoulError.parseError (lang_capital who.subjective ++
         " is no longer around."))) := by
  induction l with
  | nil => simp [List.find?] at hfind
  | cons w rest ih =>
    rw [List.find?_cons] at hfind
    unfold matchThem
    rw [reachableE_eq_ok pl w (hn w (List.mem_cons_self w rest))]
    rcases hrw : reachableB pl w with _ | _
    · rw [hrw] at hfind
      simp at hfind
      subst hfind
      rfl
    · rw [hrw] at hfind
      simp at hfind
      exact ih (fun x hx => hn x (List.mem_cons_of_mem w hx)) hfind

/-- C6: when the pronoun "them" is resolved, all targets of the previous
ParseResult are collected and each is validated for reachability (still found
via the actor's item search or still among the location's livings);
resolution fails on the first unreachable target, with that target's
assumption feedback line emitted before the failure; if all targets are
reachable, one combined confirmation line is emitted and all targets are
returned with their names as replacements (an empty previous target list
fails with "not clear"). -/
theorem C6_them_collects_and_validates_all (pl : Player) (prev : ParseResult)
    (hn : ∀ who ∈ prev.who_order, who.name ≠ "") :
    (∀ who, prev.who_order.find? (fun w => !(reachableB pl w)) = some who →
      matchPreviouslyParsed pl prev "them" =
        (["<dim>(By 'them', it is assumed you meant " ++ who.title ++ ".)</>"],
         Except.error (SoulError.parseError (lang_capital who.subjective ++
           " is no longer around.")))) ∧
    ((∀ who ∈ prev.who_order, reachableB pl who = true) → prev.who_order ≠ [] →
      matchPreviouslyParsed pl prev "them" =
        (["<dim>(By 'them', it is assumed you mean: " ++
            lang_join "and" (prev.who_order.map Entity.title) ++ ".)"],
         Except.ok (prev.who_order.map (fun w => (w, w.name))))) ∧
    (prev.who_order = [] →
      matchPreviouslyParsed pl prev "them" =
        ([], Except.error (SoulError.parseError "It is not clear who you're referring to."))) := by
  refine ⟨?_, ?_, ?_⟩
  · intro who hfind
    unfold matchPreviouslyParsed
    rw [matchThem_first_unreachable pl "them" prev.who_order hn who hfind]
    simp
  · intro hr hne
    unfold matchPreviouslyParsed
    rw [matchThem_all_reachable pl "them" prev.who_order hn hr]
    simp [hne]
  · intro hempty
    unfold matchPreviouslyParsed
    rw [hempty]
    rfl

/-- A living that is in the previous parse but no longer present anywhere. -/
def ghostE : Entity := mkLiving "ghost" "Ghost" "he" "his" "him"

/-- A previous parse that had targeted bob and the now-gone ghost. -/
def ghostPrev : ParseResult :=
  ⟨"wave", none, none, none, "", [bobE, ghostE],
   [(bobE, ⟨0, none⟩), (ghostE, ⟨1, none⟩)], ["bob", "ghost"], [], ""⟩

/-- Witness for C6: with bob reachable and ghost gone, "them" fails on ghost
after telling the assumption line. -/
theorem C6_them_collects_and_validates_all_witness :
    matchPreviouslyParsed davePlayer ghostPrev "them" =
      (["<dim>(By 'them', it is assumed you meant Ghost.)</>"],
       Except.error (SoulError.parseError "He is no longer around.")) :=
  (C6_them_collects_and_validates_all davePlayer ghostPrev (by decide)).1 ghostE (by decide)

/-- The raw action template that `process_verb_parsed` selects or builds for
a verb entry before any substitution is applied to it. -/
def selectedTemplate (verbdata : VerbData) (parsed : ParseResult) : String :=
  match verbdata.vtype with
  | VType.DEUX => verbdata.t 2
  | VType.QUAD => if parsed.who_info ≠ [] then verbdata.t 4 else verbdata.t 2
  | VType.FULL => ""
  | VType.DEFA => parsed.verb ++ "$ \nHOW \nAT"
  | VType.PREV => parsed.verb ++ "$" ++ spacify (verbdata.t 2) ++ " \nWHO \nHOW"
  | VType.PHYS => parsed.verb ++ "$" ++ spacify (verbdata.t 2) ++ " \nWHO \nHOW \nWHERE"
  | VType.SHRT => parsed.verb ++ "$" ++ spacify (verbdata.t 2) ++ " \nHOW"
  | VType.PERS => if parsed.who_order ≠ [] then verbdata.t 3 else verbdata.t 2
  | VType.SIMP => verbdata.t 2

lemma processSimpleTail_needs_person (pl : Player) (parsed : ParseResult) (verbdata : VerbData)
    (whereS message msg how action0 : String) (hwi : parsed.who_info = [])
    (hcp : check_person (pyReplace action0 " \nAT" "") parsed.who_order = false) :
    processSimpleTail pl parsed verbdata whereS message msg how action0 =
      Except.error (SoulError.parseError ("The verb " ++ parsed.verb ++ " needs a person.")) := by
  unfold processSimpleTail
  rw [hwi]
  simp [hcp]

/-- Whether the action template that the code will inspect for this entry
"needs a person": it contains the `\nWHO` or `\nPOSS` placeholder (for the
non-DEUX kinds the inspected template is the selected one after the `\nAT`
clause handling, which with no resolved targets only removes `" \nAT"`). -/
def templateNeedsPerson (verbdata : VerbData) (parsed : ParseResult) : Bool :=
  let t := if verbdata.vtype = VType.DEUX then selectedTemplate verbdata parsed
           else pyReplace (selectedTemplate verbdata parsed) " \nAT" ""
  containsSub t "\nWHO" || containsSub t "\nPOSS"

lemma check_person_false_of_needs {t : String}
    (h : (containsSub t "\nWHO" || containsSub t "\nPOSS") = true) :
    check_person t [] = false := by
  unfold check_person
  simp [h]

lemma whereClause_ok (vd : VerbData) (parsed : ParseResult)
    (hbp : parsed.bodypart.getD "" = "" ∨
      (dictGet BODY_PARTS (parsed.bodypart.getD "")).isSome = true) :
    ∃ w, whereClause vd parsed = Except.ok w := by
  unfold whereClause
  rcases hbp with hbp | hbp
  · rw [hbp]
    simp only [ne_eq, not_true_eq_false, if_false, reduceIte]
    split
    · exact ⟨_, rfl⟩
    · exact ⟨_, rfl⟩
  · obtain ⟨w, hw⟩ := Option.isSome_iff_exists.mp hbp
    have hne : ¬(parsed.bodypart.getD "" = "") := by
      intro h
      rw [h, show dictGet BODY_PARTS "" = none from by decide] at hw
      exact Option.noConfusion hw
    simp only [ne_eq, hne, not_false_eq_true, if_true, hw, reduceIte]
    exact ⟨_, rfl⟩

/-- For every non-QUAD, non-FULL verb entry, a ParseResult with no resolved
targets whose template needs a person makes rendering fail with the parse
error, before any message is produced. -/
lemma processVerbParsed_needs_person_aux (pl : Player) (parsed : ParseResult) (vd : VerbData)
    (hlook : dictGet VERBS parsed.verb = some vd)
    (hwo : parsed.who_order = []) (hwi : parsed.who_info = [])
    (hbp : parsed.bodypart.getD "" = "" ∨
      (dictGet BODY_PARTS (parsed.bodypart.getD "")).isSome = true)
    (hq : vd.vtype ≠ VType.QUAD) (hf : vd.vtype ≠ VType.FULL)
    (hneed : templateNeedsPerson vd parsed = true) :
    processVerbParsed pl parsed =
      Except.error (SoulError.parseError ("The verb " ++ parsed.verb ++ " needs a person.")) := by
  have hcp : ∀ t : String, (containsSub (pyReplace t " \nAT" "") "\nWHO" ||
      containsSub (pyReplace t " \nAT" "") "\nPOSS") = true →
      check_person (pyReplace t " \nAT" "") parsed.who_order = false := by
    intro t ht
    rw [hwo]
    exact check_person_false_of_needs ht
  obtain ⟨w, hw⟩ := whereClause_ok vd parsed hbp
  unfold processVerbParsed
  rw [hlook]
  simp only [hw, Bind.bind, Except.bind]
  cases hv : vd.vtype
  case DEUX =>
    simp only [templateNeedsPerson, selectedTemplate, hv, if_pos, reduceIte] at hneed
    rw [hwo]
    simp [check_person_false_of_needs hneed]
  case QUAD => exact absurd hv hq
  case FULL => exact absurd hv hf
  case DEFA =>
    simp only [templateNeedsPerson, selectedTemplate, hv, reduceIte, reduceCtorEq, if_false] at hneed
    apply processSimpleTail_needs_person _ _ _ _ _ _ _ _ hwi
    exact hcp _ hneed
  case PREV =>
    simp only [templateNeedsPerson, selectedTemplate, hv, reduceIte, reduceCtorEq, if_false] at hneed
    apply processSimpleTail_needs_person _ _ _ _ _ _ _ _ hwi
    exact hcp _ hneed
  case PHYS =>
    simp only [templateNeedsPerson, selectedTemplate, hv, reduceIte, reduceCtorEq, if_false] at hneed
    apply processSimpleTail_needs_person _ _ _ _ _ _ _ _ hwi
    exact hcp _ hneed
  case SHRT =>
    simp only [templateNeedsPerson, selectedTemplate, hv, reduceIte, reduceCtorEq, if_false] at hneed
    apply processSimpleTail_needs_person _ _ _ _ _ _ _ _ hwi
    exact hcp _ hneed
  case PERS =>
    simp only [templateNeedsPerson, selectedTemplate, hv, hwo, reduceIte, reduceCtorEq, if_false] at hneed
    rw [hwo]
    simp only [ne_eq, not_true_eq_false, if_false, reduceIte]
    apply processSimpleTail_needs_person _ _ _ _ _ _ _ _ hwi
    exact hcp _ hneed
  case SIMP =>
    simp only [templateNeedsPerson, selectedTemplate, hv, reduceIte, reduceCtorEq, if_false] at hneed
    apply processSimpleTail_needs_person _ _ _ _ _ _ _ _ hwi
    exact hcp _ hneed



lemma VERBS_lookup_mem {v : String} {vd : VerbData} (h : dictGet VERBS v = some vd) :
    vd ∈ VERBS.map Prod.snd := by
  unfold dictGet at h
  rcases hf : VERBS.find? (fun p => p.1 == v) with _ | p
  · rw [hf] at h; simp at h
  · rw [hf] at h
    simp at h
    subst h
    exact List.mem_map_of_mem Prod.snd (List.mem_of_find?_eq_some hf)

/-- C7: for every ParseResult with an empty target list whose verb's template
contains the `\nWHO` or `\nPOSS` placeholder, rendering
(`Soul.process_verb_parsed`) fails with the parse error
"The verb X needs a person." and no placeholder-substituted message is ever
produced (the body part, when set, must be a table key — otherwise the source
raises `KeyError` first). -/
theorem C7_needs_person_before_substitution (pl : Player) (parsed : ParseResult) (vd : VerbData)
    (hlook : dictGet VERBS parsed.verb = some vd)
    (hwo : parsed.who_order = []) (hwi : parsed.who_info = [])
    (hbp : parsed.bodypart.getD "" = "" ∨
      (dictGet BODY_PARTS (parsed.bodypart.getD "")).isSome = true)
    (hneed : templateNeedsPerson vd parsed = true) :
    processVerbParsed pl parsed =
      Except.error (SoulError.parseError ("The verb " ++ parsed.verb ++ " needs a person.")) := by
  by_cases hq : vd.vtype = VType.QUAD
  · exfalso
    have hfacts : ∀ x ∈ VERBS.map Prod.snd, x.vtype = VType.QUAD →
        (containsSub (pyReplace (x.t 2) " \nAT" "") "\nWHO" ||
         containsSub (pyReplace (x.t 2) " \nAT" "") "\nPOSS") = false := by decide
    have h2 := hfacts vd (VERBS_lookup_mem hlook) hq
    simp only [templateNeedsPerson, selectedTemplate, hq, hwi, reduceIte, reduceCtorEq,
      if_false, ne_eq, not_true_eq_false] at hneed
    rw [h2] at hneed
    exact Bool.false_ne_true hneed
  · have hfull : vd.vtype ≠ VType.FULL := by
      have hall : ∀ x ∈ VERBS.map Prod.snd, x.vtype ≠ VType.FULL := by decide
      exact hall vd (VERBS_lookup_mem hlook)
    exact processVerbParsed_needs_person_aux pl parsed vd hlook hwo hwi hbp hq hfull hneed

/-- Witness for C7 at the PREV verb "poke" with no targets. -/
theorem C7_needs_person_before_substitution_witness :
    processVerbParsed davePlayer ⟨"poke", none, none, none, "", [], [], [], [], ""⟩ =
      Except.error (SoulError.parseError "The verb poke needs a person.") :=
  C7_needs_person_before_substitution davePlayer
    ⟨"poke", none, none, none, "", [], [], [], [], ""⟩
    ⟨VType.PREV, none, [""]⟩ (by decide) rfl rfl (Or.inl rfl) (by decide)

lemma joinWith_append_single (l : List String) (w : String) (h : l ≠ []) :
    joinWith " " (l ++ [w]) = joinWith " " l ++ " " ++ w := by
  induction l with
  | nil => exact absurd rfl h
  | cons x xs ih =>
    cases xs with
    | nil => rfl
    | cons y ys =>
      have h2 := ih (by simp)
      simp only [List.cons_append] at h2 ⊢
      show x ++ " " ++ joinWith " " (y :: (ys ++ [w])) = x ++ " " ++ joinWith " " (y :: ys) ++ " " ++ w
      rw [h2]
      simp [String.append_assoc]

lemma checkNameGo_succ (livs items : List (String × Entity)) (f : Nat) (name : String)
    (rest : List String) (wordcount : Nat) :
    checkNameGo livs items (f + 1) name rest wordcount =
      (if wordcount ≥ 6 then (none, none, 0)
       else
        match dictGet livs name with
        | some e => (some e, some name, wordcount)
        | none =>
          match dictGet items name with
          | some e => (some e, some name, wordcount)
          | none =>
            match rest with
            | [] => (none, none, 0)
            | w :: rs => checkNameGo livs items f (name ++ " " ++ w) rs (wordcount + 1)) := rfl

lemma specGo_gt (livs items : List (String × Entity)) (ws : List String) (k b : Nat)
    (h : k > ws.length) : specMultiwordGo livs items ws k b = none := by
  cases b with
  | zero => rfl
  | succ b' => simp [specMultiwordGo, h]

lemma checkNameGo_spec (livs items : List (String × Entity)) :
    ∀ fuel k (ws : List String), k ≥ 1 → k ≤ ws.length → fuel = 7 - k →
      checkNameGo livs items fuel (joinWords (ws.take k)) (ws.drop k) k =
        (match specMultiwordGo livs items ws k (6 - k) with
         | some (e, n, kk) => (some e, some n, kk)
         | none => (none, none, 0)) := by
  intro fuel
  induction fuel with
  | zero =>
    intro k ws h1 h2 hf
    rw [show (6 - k) = 0 from by omega]
    rfl
  | succ f ih =>
    intro k ws h1 h2 hf
    by_cases hk : k ≥ 6
    · rw [show (6 - k) = 0 from by omega]
      rw [checkNameGo_succ]
      rw [if_pos hk]
      rfl
    · rw [show (6 - k) = (5 - k) + 1 from by omega]
      rw [checkNameGo_succ]
      unfold specMultiwordGo
      rw [if_neg hk, if_neg (by omega : ¬ k > ws.length)]
      simp only
      cases hl : dictGet livs (joinWords (ws.take k)) with
      | some e => rfl
      | none =>
        cases hi : dictGet items (joinWords (ws.take k)) with
        | some e => rfl
        | none =>
          cases hd : ws.drop k with
          | nil =>
            have hgt : k + 1 > ws.length := by
              have := List.drop_eq_nil_iff.mp hd
              omega
            rw [specGo_gt livs items ws (k + 1) (5 - k) hgt]
          | cons w rs =>
            have hkl : k < ws.length := by
              by_contra hc
              rw [List.drop_eq_nil_iff.mpr (by omega)] at hd
              exact List.noConfusion hd
            have hw : ws[k]? = some w := by
              have h0 := List.getElem?_drop ws k 0
              rw [hd] at h0
              simpa using h0.symm
            have htake : ws.take (k + 1) = ws.take k ++ [w] := by
              rw [List.take_succ, hw]
              rfl
            have hdrop : ws.drop (k + 1) = rs := by
              have hdd : ws.drop (k + 1) = (ws.drop k).drop 1 := by
                rw [List.drop_drop]
              rw [hdd, hd]
              rfl
            have hjoin : joinWords (ws.take k) ++ " " ++ w = joinWords (ws.take (k + 1)) := by
              rw [htake]
              unfold joinWords
              rw [joinWith_append_single]
              intro hnil
              rcases List.take_eq_nil_iff.mp hnil with h | h
              · omega
              · subst h; simp at h2; omega
            simp only
            rw [hjoin, show rs = ws.drop (k + 1) from hdrop.symm]
            have hres := ih (k + 1) ws (by omega) (by omega) (by omega)
            rw [show (6 - (k + 1)) = 5 - k from by omega] at hres
            exact hres



/-- C2 (amended): the multi-word matching algorithm first tries the single
word as a dictionary key, then extends the candidate by one following
space-joined word at a time, returning on the first successful hit (shortest
match wins; livings take priority over items at equal length), and considers
candidate names of up to 5 total words before reporting no match (not 6: the
6-word candidate is built but the loop exits before testing it); `"go north
gate"` resolves its exit match to the exit keyed "north", consuming one word. -/
theorem C2_multiword_shortest_match :
    (∀ (all_livings all_items : List (String × Entity)) (words : List String) (index : Nat),
      words.drop index ≠ [] →
      check_name_with_spaces words index all_livings all_items =
        (match specMultiword all_livings all_items (words.drop index) 5 with
         | some (e, n, k) => (some e, some n, k)
         | none => (none, none, 0))) ∧
    check_name_with_spaces ["north", "gate"] 0 [("north", northE), ("north gate", northGateE)] []
      = (some northE, some "north", 1) := by
  constructor
  · intro livs items words index hne
    unfold check_name_with_spaces
    cases hd : words.drop index with
    | nil => exact absurd hd hne
    | cons w r =>
      have h1 : joinWords ((w :: r).take 1) = w := by
        unfold joinWords
        rfl
      have hmain := checkNameGo_spec livs items 6 1 (w :: r) (by omega) (by simp) (by omega)
      rw [h1] at hmain
      simpa [specMultiword] using hmain
  · decide

/-- Witness for C2 at the documented example snapshot. -/
theorem C2_multiword_shortest_match_witness :
    check_name_with_spaces ["north", "gate"] 0 [("north", northE), ("north gate", northGateE)] []
      = (match specMultiword [("north", northE), ("north gate", northGateE)] [] ["north", "gate"] 5 with
         | some (e, n, k) => (some e, some n, k)
         | none => (none, none, 0)) :=
  C2_multiword_shortest_match.1 [("north", northE), ("north gate", northGateE)] []
    ["north", "gate"] 0 (by decide)


/-- The invariant of the working target collection: every `who_info` key is in
`who_order`, and `who_info` is no longer than `who_order`. -/
def InvWho (d : WhoDict) (l : List Entity) : Prop :=
  (∀ x ∈ d.entries.map Prod.fst, x ∈ l) ∧ d.entries.length ≤ l.length

lemma setInfo_ok {d : WhoDict} {k : Entity} {s : Nat} {pw : Option String} {d' : WhoDict}
    (h : d.setInfo k s pw = Except.ok d') :
    (d'.entries.map Prod.fst = d.entries.map Prod.fst ∧ d'.entries.length = d.entries.length) ∨
    (d'.entries.map Prod.fst = d.entries.map Prod.fst ++ [k] ∧
      d'.entries.length = d.entries.length + 1) := by
  unfold WhoDict.setInfo at h
  split at h
  · left
    injection h with h
    subst h
    constructor
    · show (d.entries.map fun p => if p.1 == k then (k, ⟨s, pw⟩) else p).map Prod.fst
        = d.entries.map Prod.fst
      rw [List.map_map]
      apply List.map_eq_map_iff.mpr
      intro p _
      by_cases hpk : (p.1 == k) = true
      · simp only [Function.comp_apply, hpk, if_true, reduceIte]
        exact (eq_of_beq hpk).symm
      · simp only [Function.comp_apply, hpk, Bool.false_eq_true, if_false, reduceIte]
    · simp
  · split at h
    · right
      injection h with h
      subst h
      simp
    · exact Except.noConfusion h

lemma delKey_ok {d : WhoDict} {k : Entity} {d' : WhoDict} (h : d.delKey k = Except.ok d') :
    (∀ x ∈ d'.entries.map Prod.fst, x ∈ d.entries.map Prod.fst ∧ x ≠ k) ∧
    d'.entries.length + 1 ≤ d.entries.length := by
  unfold WhoDict.delKey at h
  by_cases hhk : d.hasKey k = true
  · rw [if_pos hhk] at h
    injection h with h
    subst h
    constructor
    · intro x hx
      simp only [List.mem_map] at hx
      obtain ⟨p, hp, hpx⟩ := hx
      rw [List.mem_filter] at hp
      have hk : ¬ p.1 = k := by simpa using hp.2
      exact ⟨hpx ▸ List.mem_map_of_mem Prod.fst hp.1, hpx ▸ hk⟩
    · have hex : ∃ p ∈ d.entries, ¬ ((fun p => decide ¬((p.1 == k) = true)) p = true) := by
        unfold WhoDict.hasKey at hhk
        obtain ⟨p, hp, hpk⟩ := List.any_eq_true.mp hhk
        exact ⟨p, hp, by simp [hpk]⟩
      have hlt := List.length_filter_lt_length_iff_exists.mpr hex
      simp only [WhoDict.size] at hlt ⊢
      omega
  · rw [if_neg hhk] at h
    exact Except.noConfusion h

lemma listRemoveFirst_ok {y : Entity} :
    ∀ {l l' : List Entity}, listRemoveFirst l y = Except.ok l' →
      l'.length + 1 = l.length ∧ ∀ x ∈ l, x ≠ y → x ∈ l' := by
  intro l
  induction l with
  | nil => intro l' h; exact Except.noConfusion h
  | cons a as ih =>
    intro l' h
    unfold listRemoveFirst at h
    by_cases hay : (a == y) = true
    · rw [if_pos hay] at h
      injection h with h
      subst h
      refine ⟨by simp, ?_⟩
      intro x hx hxy
      rcases List.mem_cons.mp hx with rfl | hxs
      · exact absurd (eq_of_beq hay) hxy
      · exact hxs
    · rw [if_neg hay] at h
      cases hrec : listRemoveFirst as y with
      | error e => rw [hrec] at h; exact Except.noConfusion h
      | ok as' =>
        rw [hrec] at h
        simp only [Except.map] at h
        injection h with h
        subst h
        obtain ⟨hlen, hmem⟩ := ih hrec
        refine ⟨by simp [← hlen], ?_⟩
        intro x hx hxy
        rcases List.mem_cons.mp hx with rfl | hxs
        · exact List.mem_cons_self x as'
        · exact List.mem_cons_of_mem a (hmem x hxs hxy)


lemma InvWho_addWho {st st' : WalkState} {who : Entity}
    (hinv : InvWho st.who_info st.who_order) (h : st.addWho who = Except.ok st') :
    InvWho st'.who_info st'.who_order := by
  unfold WalkState.addWho at h
  cases hset : st.who_info.setInfo who st.who_sequence st.previous_word with
  | error e => rw [hset] at h; exact Except.noConfusion h
  | ok wi =>
    rw [hset] at h
    simp only [Bind.bind, Except.bind] at h
    injection h with h
    subst h
    have hord := hinv.2
    rcases setInfo_ok hset with ⟨hkeys, hlen⟩ | ⟨hkeys, hlen⟩
    · refine ⟨?_, ?_⟩
      · intro x hx
        rw [hkeys] at hx
        exact List.mem_append_left _ (hinv.1 x hx)
      · simp only [List.length_append, List.length_singleton]
        omega
    · refine ⟨?_, ?_⟩
      · intro x hx
        rw [hkeys] at hx
        rcases List.mem_append.mp hx with hx | hx
        · exact List.mem_append_left _ (hinv.1 x hx)
        · rw [List.mem_singleton.mp hx]
          exact List.mem_append_right _ (List.mem_singleton_self who)
      · simp only [List.length_append, List.length_singleton]
        omega

lemma InvWho_unguardedRemove {st : WalkState} {who : Entity} {wi : WhoDict} {wo : List Entity}
    (hinv : InvWho st.who_info st.who_order)
    (hdel : st.who_info.delKey who = Except.ok wi)
    (hrem : listRemoveFirst st.who_order who = Except.ok wo) :
    InvWho wi wo := by
  obtain ⟨hsub, hlen⟩ := delKey_ok hdel
  obtain ⟨hlen2, hmem⟩ := listRemoveFirst_ok hrem
  have hord := hinv.2
  refine ⟨?_, by omega⟩
  intro x hx
  obtain ⟨hxd, hxk⟩ := hsub x hx
  exact hmem x (hinv.1 x hxd) hxk

lemma InvWho_removeWho {st st' : WalkState} {who : Entity}
    (hinv : InvWho st.who_info st.who_order) (h : st.removeWho who = Except.ok st') :
    InvWho st'.who_info st'.who_order := by
  unfold WalkState.removeWho at h
  by_cases hhk : st.who_info.hasKey who = true
  · rw [if_pos hhk] at h
    cases hdel : st.who_info.delKey who with
    | error e => rw [hdel] at h; exact Except.noConfusion h
    | ok wi =>
      rw [hdel] at h
      simp only [Bind.bind, Except.bind] at h
      cases hrem : listRemoveFirst st.who_order who with
      | error e => rw [hrem] at h; exact Except.noConfusion h
      | ok wo =>
        rw [hrem] at h
        injection h with h
        subst h
        exact InvWho_unguardedRemove hinv hdel hrem
  · rw [if_neg hhk] at h
    injection h with h
    subst h
    exact hinv

lemma InvWho_addOrRemove {st st' : WalkState} {who : Entity}
    (hinv : InvWho st.who_info st.who_order) (h : st.addOrRemove who = Except.ok st') :
    InvWho st'.who_info st'.who_order := by
  unfold WalkState.addOrRemove at h
  by_cases hif : st.include_flag = true
  · rw [if_pos hif] at h
    exact InvWho_addWho hinv h
  · rw [if_neg hif] at h
    exact InvWho_removeWho hinv h

lemma InvWho_addPronounList (flag : Bool) :
    ∀ (lst : List (Entity × String)) (st st' : WalkState),
      addPronounList flag st lst = Except.ok st' →
      InvWho st.who_info st.who_order →
      InvWho st'.who_info st'.who_order := by
  intro lst
  induction lst with
  | nil =>
    intro st st' h hinv
    unfold addPronounList at h
    injection h with h
    subst h
    exact hinv
  | cons p rest ih =>
    intro st st' h hinv
    obtain ⟨who, name⟩ := p
    unfold addPronounList at h
    simp only [Bind.bind] at h
    by_cases hf : flag = true
    · rw [if_pos hf] at h
      cases hstep : st.addWho who with
      | error e => rw [hstep] at h; exact Except.noConfusion h
      | ok st1 =>
        rw [hstep] at h
        simp only [Except.bind] at h
        exact ih _ st' h (@InvWho_addWho st st1 who hinv hstep)
    · rw [if_neg hf] at h
      cases hdel : st.who_info.delKey who with
      | error e => rw [hdel] at h; exact Except.noConfusion h
      | ok wi =>
        rw [hdel] at h
        simp only [Except.bind] at h
        cases hrem : listRemoveFirst st.who_order who with
        | error e => rw [hrem] at h; exact Except.noConfusion h
        | ok wo =>
          rw [hrem] at h
          simp only [Except.bind] at h
          exact ih _ st' h (@InvWho_unguardedRemove st who wi wo hinv hdel hrem)

lemma InvWho_foldAdd (pl : Player) :
    ∀ (ls : List Entity) (st st' : WalkState),
      List.foldlM (fun s living => if living = pl.me then Except.ok s else s.addWho living) st ls
        = Except.ok st' →
      InvWho st.who_info st.who_order →
      InvWho st'.who_info st'.who_order := by
  intro ls
  induction ls with
  | nil =>
    intro st st' h hinv
    simp only [List.foldlM] at h
    injection h with h
    subst h
    exact hinv
  | cons a as ih =>
    intro st st' h hinv
    simp only [List.foldlM, Bind.bind] at h
    by_cases ha : a = pl.me
    · rw [if_pos ha] at h
      simp only [Except.bind] at h
      exact ih st st' h hinv
    · rw [if_neg ha] at h
      cases hstep : st.addWho a with
      | error e => rw [hstep] at h; exact Except.noConfusion h
      | ok st1 =>
        rw [hstep] at h
        simp only [Except.bind] at h
        exact ih st1 st' h (InvWho_addWho hinv hstep)

lemma InvWho_addEveryone {pl : Player} {st st' : WalkState}
    (hinv : InvWho st.who_info st.who_order) (h : addEveryone pl st = Except.ok st') :
    InvWho st'.who_info st'.who_order := by
  unfold addEveryone at h
  exact InvWho_foldAdd pl pl.location.livings st st' h hinv


lemma InvWho_parseStep (pl : Player) (pp : Option ParseResult)
    (al ai : List (String × Entity)) (mv ev : Bool) (vb q : Option String)
    (ws : List String) (w0 : String) (r1 : List String) {st st' : WalkState} {k : Nat}
    (h : parseStep pl pp al ai mv ev vb q ws w0 r1 st = StepOut.next st' k)
    (hinv : InvWho st.who_info st.who_order) :
    InvWho st'.who_info st'.who_order := by
  unfold parseStep at h
  by_cases c1 : st.collect_message = true
  · rw [if_pos c1] at h
    injection h with h1 h2
    subst h1
    exact hinv
  rw [if_neg c1] at h
  try simp only [] at h
  generalize (if ¬mv = true ∧ ¬st.collect_message = true then rstripComma w0 else w0) = word at h
  by_cases c2 : word = "them" ∨ word = "him" ∨ word = "her" ∨ word = "it"
  · rw [if_pos c2] at h
    cases pp with
    | none => exact StepOut.noConfusion h
    | some prev =>
      try simp only [] at h
      rcases hm : matchPreviouslyParsed pl prev word with ⟨lines, res⟩
      rw [hm] at h
      cases res with
      | error e => exact StepOut.noConfusion h
      | ok who_list =>
        try simp only [] at h
        cases hap : addPronounList st.include_flag
            { st with told := st.told ++ lines } who_list with
        | error e => rw [hap] at h; exact StepOut.noConfusion h
        | ok st2 =>
          rw [hap] at h
          injection h with h1 h2
          subst h1
          exact InvWho_addPronounList _ who_list _ st2 hap hinv
  rw [if_neg c2] at h
  by_cases c3 : word = "me" ∨ word = "myself" ∨ word = "self"
  · rw [if_pos c3] at h
    cases har : st.addOrRemove pl.me with
    | error e => rw [har] at h; exact StepOut.noConfusion h
    | ok st1 =>
      rw [har] at h
      injection h with h1 h2
      subst h1
      exact @InvWho_addOrRemove st st1 pl.me hinv har
  rw [if_neg c3] at h
  by_cases c4 : dictHas BODY_PARTS word = true
  · rw [if_pos c4] at h
    cases hb : st.bodypart with
    | some bp => rw [hb] at h; exact StepOut.noConfusion h
    | none =>
      rw [hb] at h
      try simp only [] at h
      injection h with h1 h2
      subst h1
      exact hinv
  rw [if_neg c4] at h
  by_cases c5 : word = "everyone" ∨ word = "everybody" ∨ word = "all"
  · rw [if_pos c5] at h
    by_cases c5a : st.include_flag = true
    · rw [if_pos c5a] at h
      by_cases c5b : al = []
      · rw [if_pos c5b] at h
        exact StepOut.noConfusion h
      · rw [if_neg c5b] at h
        cases hev : addEveryone pl st with
        | error e => rw [hev] at h; exact StepOut.noConfusion h
        | ok st1 =>
          rw [hev] at h
          injection h with h1 h2
          subst h1
          exact @InvWho_addEveryone pl st st1 hinv hev
    · rw [if_neg c5a] at h
      injection h with h1 h2
      subst h1
      refine ⟨?_, by simp⟩
      intro x hx
      simp at hx
  rw [if_neg c5] at h
  by_cases c6 : word = "everything"
  · rw [if_pos c6] at h
    exact StepOut.noConfusion h
  rw [if_neg c6] at h
  by_cases c7 : word = "except" ∨ word = "but"
  · rw [if_pos c7] at h
    injection h with h1 h2
    subst h1
    exact hinv
  rw [if_neg c7] at h
  by_cases c8 : ADVERBS.contains word = true
  · rw [if_pos c8] at h
    cases ha : st.adverb with
    | some adv => rw [ha] at h; exact StepOut.noConfusion h
    | none =>
      rw [ha] at h
      try simp only [] at h
      injection h with h1 h2
      subst h1
      exact hinv
  rw [if_neg c8] at h
  cases hgl : dictGet al word with
  | some living =>
    rw [hgl] at h
    try simp only [] at h
    cases har : st.addOrRemove living with
    | error e => rw [har] at h; exact StepOut.noConfusion h
    | ok st1 =>
      rw [har] at h
      injection h with h1 h2
      subst h1
      exact @InvWho_addOrRemove st st1 living hinv har
  | none =>
  rw [hgl] at h
  try simp only [] at h
  cases hgi : dictGet ai word with
  | some item =>
    rw [hgi] at h
    try simp only [] at h
    cases har : st.addOrRemove item with
    | error e => rw [har] at h; exact StepOut.noConfusion h
    | ok st1 =>
      rw [har] at h
      injection h with h1 h2
      subst h1
      exact @InvWho_addOrRemove st st1 item hinv har
  | none =>
  rw [hgi] at h
  try simp only [] at h
  rcases hce : check_name_with_spaces (w0 :: r1) 0 pl.location.exits [] with ⟨oe, en, wc⟩
  rw [hce] at h
  cases oe with
  | some exitE =>
    try simp only [] at h
    cases haw : st.addWho exitE with
    | error e => rw [haw] at h; exact StepOut.noConfusion h
    | ok st1 =>
      rw [haw] at h
      injection h with h1 h2
      subst h1
      exact @InvWho_addWho st st1 exitE hinv haw
  | none =>
  try simp only [] at h
  rcases hcm : check_name_with_spaces (w0 :: r1) 0 al ai with ⟨om, fn, wc2⟩
  rw [hcm] at h
  cases om with
  | some item =>
    try simp only [] at h
    cases har : st.addOrRemove item with
    | error e => rw [har] at h; exact StepOut.noConfusion h
    | ok st1 =>
      rw [har] at h
      injection h with h1 h2
      subst h1
      exact @InvWho_addOrRemove st st1 item hinv har
  | none =>
  try simp only [] at h
  by_cases c13 : mv = true ∧ st.message = []
  · rw [if_pos c13] at h
    injection h with h1 h2
    subst h1
    exact hinv
  rw [if_neg c13] at h
  by_cases c14 : SKIP_WORDS.contains word = true
  · rw [if_neg (by simpa using c14)] at h
    injection h with h1 h2
    subst h1
    exact hinv
  rw [if_pos (by simpa using c14)] at h
  cases hs1 : (if st.who_order = [] then
      (al.map Prod.fst).find? (fun name => pyStartsWith name word) else none) with
  | some nm => rw [hs1] at h; exact StepOut.noConfusion h
  | none =>
  rw [hs1] at h
  try simp only [] at h
  cases hs2 : (if st.who_order = [] then
      (ai.map Prod.fst).find? (fun name => pyStartsWith name word) else none) with
  | some nm => rw [hs2] at h; exact StepOut.noConfusion h
  | none =>
  rw [hs2] at h
  try simp only [] at h
  by_cases c15 : ¬ev = true
  · rw [if_pos c15] at h
    cases vb with
    | none => exact StepOut.noConfusion h
    | some v =>
      try simp only [] at h
      by_cases c16 : (adverbByPre word).length = 1
      · rw [if_pos c16] at h
        cases ha : st.adverb with
        | some a => rw [ha] at h; exact StepOut.noConfusion h
        | none =>
          rw [ha] at h
          try simp only [] at h
          injection h with h1 h2
          subst h1
          exact hinv
      · rw [if_neg c16] at h
        by_cases c17 : (adverbByPre word).length > 1
        · rw [if_pos c17] at h
          exact StepOut.noConfusion h
        · rw [if_neg c17] at h
          by_cases c18 : ev = true
          · rw [if_pos c18] at h
            injection h with h1 h2
            subst h1
            exact hinv
          · rw [if_neg c18] at h
            by_cases c19 : dictHas VERBS word = true ∨ dictHas ACTION_QUALIFIERS word = true ∨
                dictHas BODY_PARTS word = true
            · rw [if_pos c19] at h
              exact StepOut.noConfusion h
            · rw [if_neg c19] at h
              try simp only [] at h
              cases hwd : word.data with
              | nil => rw [hwd] at h; exact StepOut.noConfusion h
              | cons c cs =>
                rw [hwd] at h
                try simp only [] at h
                by_cases c20 : c.isUpper = true
                · rw [if_pos c20] at h
                  exact StepOut.noConfusion h
                · rw [if_neg c20] at h
                  exact StepOut.noConfusion h
  · rw [if_neg c15] at h
    by_cases c18 : ev = true
    · rw [if_pos c18] at h
      injection h with h1 h2
      subst h1
      exact hinv
    · rw [if_neg c18] at h
      by_cases c19 : dictHas VERBS word = true ∨ dictHas ACTION_QUALIFIERS word = true ∨
          dictHas BODY_PARTS word = true
      · rw [if_pos c19] at h
        exact StepOut.noConfusion h
      · rw [if_neg c19] at h
        try simp only [] at h
        cases hwd : word.data with
        | nil => rw [hwd] at h; exact StepOut.noConfusion h
        | cons c cs =>
          rw [hwd] at h
          try simp only [] at h
          by_cases c20 : c.isUpper = true
          · rw [if_pos c20] at h
            exact StepOut.noConfusion h
          · rw [if_neg c20] at h
            exact StepOut.noConfusion h

lemma assembleResult_ok {verb qualifier : Option String} {words3 : List String}
    {unparsed3 : String} {stF : WalkState} {told : List String} {p : ParseResult}
    (h : assembleResult verb qualifier words3 unparsed3 stF = (told, Except.ok p)) :
    p.who_info = stF.who_info.entries ∧ p.who_order = stF.who_order := by
  unfold assembleResult at h
  cases verb with
  | some v =>
    simp only [] at h
    injection h with h1 h2
    injection h2 with h3
    subst h3
    exact ⟨rfl, rfl⟩
  | none =>
    simp only [] at h
    cases hwo : stF.who_order with
    | nil =>
      rw [hwo] at h
      injection h with h1 h2
      exact Except.noConfusion h2
    | cons a t =>
      cases t with
      | nil =>
        rw [hwo] at h
        simp only [] at h
        injection h with h1 h2
        injection h2 with h3
        subst h3
        exact ⟨rfl, rfl⟩
      | cons b t2 =>
        rw [hwo] at h
        injection h with h1 h2
        exact Except.noConfusion h2

lemma InvWho_parseLoop (pl : Player) (pp : Option ParseResult)
    (al : List (String × Entity)) (ai : List (String × Entity))
    (mv ev : Bool) (vb q : Option String) (ws : List String) :
    ∀ (fuel : Nat) (rest : List String) (st st' : WalkState),
      parseLoop pl pp al ai mv ev vb q ws fuel rest st = Except.ok st' →
      InvWho st.who_info st.who_order → InvWho st'.who_info st'.who_order := by
  intro fuel
  induction fuel with
  | zero =>
    intro rest st st' h hinv
    cases rest with
    | nil =>
      unfold parseLoop at h
      injection h with h1
      subst h1
      exact hinv
    | cons w r =>
      unfold parseLoop at h
      injection h with h1
      subst h1
      exact hinv
  | succ f ih =>
    intro rest st st' h hinv
    cases rest with
    | nil =>
      unfold parseLoop at h
      injection h with h1
      subst h1
      exact hinv
    | cons w0 r1 =>
      unfold parseLoop at h
      cases hstep : parseStep pl pp al ai mv ev vb q ws w0 r1 st with
      | fail told e =>
        rw [hstep] at h
        exact Except.noConfusion h
      | next st1 k =>
        rw [hstep] at h
        simp only [] at h
        exact ih _ _ _ h (InvWho_parseStep pl pp al ai mv ev vb q ws w0 r1 hstep hinv)

lemma finishParse_ok {pl : Player} {pp : Option ParseResult}
    {al ai : List (String × Entity)} {mv ev : Bool} {vb q : Option String}
    {words3 : List String} {unparsed3 : String} {st0 : WalkState}
    {told : List String} {p : ParseResult}
    (h : finishParse pl pp al ai mv ev vb q words3 unparsed3 st0 = (told, Except.ok p))
    (hinv : InvWho st0.who_info st0.who_order) :
    (∀ x ∈ p.who_info.map Prod.fst, x ∈ p.who_order) ∧
      p.who_info.length ≤ p.who_order.length := by
  unfold finishParse at h
  cases hloop : parseLoop pl pp al ai mv ev vb q words3 words3.length words3 st0 with
  | error te =>
    rw [hloop] at h
    obtain ⟨t, e⟩ := te
    simp only [] at h
    injection h with h1 h2
    exact Except.noConfusion h2
  | ok stF =>
    rw [hloop] at h
    simp only [] at h
    have hend := InvWho_parseLoop pl pp al ai mv ev vb q words3 _ _ _ _ hloop hinv
    have hassm := assembleResult_ok h
    rw [hassm.1, hassm.2]
    exact hend

/-- C1 (amended): for every snapshot and command on which `Soul.parse` returns a
`ParseResult`, every key of the result's `who_info` appears in `who_order`, and
`who_info` has at most as many entries as `who_order`.  (The original claim's
stronger form — no duplicates in `who_order` and equal sizes — is refuted by
`C1_counterexample`: naming the same entity twice duplicates it in
`who_order`.) -/
theorem C1_parse_who_invariant (pl : Player) (pp : Option ParseResult)
    (evs : List String) (cmd : String) (told : List String) (p : ParseResult)
    (h : soulParse pl pp evs cmd = (told, Except.ok p)) :
    (∀ x ∈ p.who_info.map Prod.fst, x ∈ p.who_order) ∧
      p.who_info.length ≤ p.who_order.length := by
  unfold soulParse at h
  simp only [] at h
  repeat' split at h
  all_goals first
    | (injection h with h1 h2; exact Except.noConfusion h2)
    | (exact finishParse_ok h (by
        refine ⟨?_, ?_⟩
        · intro x hx
          simp at hx
        · simp))

def c1wp : ParseResult :=
  { verb := "wave", qualifier := none, adverb := none, bodypart := none, message := "",
    who_order := [bobE], who_info := [(bobE, { sequence := 0, previous_word := none })],
    args := ["bob"], unrecognized := [], unparsed := "bob" }

theorem C1_parse_who_invariant_witness :
    (∀ x ∈ c1wp.who_info.map Prod.fst, x ∈ c1wp.who_order) ∧
      c1wp.who_info.length ≤ c1wp.who_order.length :=
  C1_parse_who_invariant davePlayer none [] "wave bob" [] c1wp (by rfl)


/-- C9: under exclusion ("except"/"but" with the include flag off),
"everyone"/"everybody"/"all" rebinds `who_info` to a plain (non-default) empty
dict, empties `who_order`, resets the sequence counter and leaves the include
flag off; "except"/"but" toggles the include flag; once the flag is back on,
the addition path for any named living, item or "me" raises `KeyError` on that
plain dict, which is none of the three recoverable kinds (parse error,
unknown verb, non-soul verb); end to end,
`parse("wave except everyone but bob")` raises exactly this `KeyError`. -/
theorem C9_exclusion_everyone_plain_dict_keyerror :
    (∀ (pl : Player) (pp : Option ParseResult) (al ai : List (String × Entity))
        (mv ev : Bool) (vb q : Option String) (ws rest1 : List String)
        (st : WalkState) (w0 : String),
        st.collect_message = false → st.include_flag = false →
        w0 = "everyone" ∨ w0 = "everybody" ∨ w0 = "all" →
        parseStep pl pp al ai mv ev vb q ws w0 rest1 st =
          StepOut.next { st with who_info := ⟨[], false⟩, who_order := [],
                                 who_sequence := 0, arg_words := st.arg_words ++ [w0],
                                 previous_word := none } 1) ∧
    (∀ (pl : Player) (pp : Option ParseResult) (al ai : List (String × Entity))
        (mv ev : Bool) (vb q : Option String) (ws rest1 : List String)
        (st : WalkState) (w0 : String),
        st.collect_message = false →
        w0 = "except" ∨ w0 = "but" →
        parseStep pl pp al ai mv ev vb q ws w0 rest1 st =
          StepOut.next { st with include_flag := ¬st.include_flag,
                                 arg_words := st.arg_words ++ [w0] } 1) ∧
    (∀ (st : WalkState) (who : Entity),
        st.who_info = ⟨[], false⟩ → st.include_flag = true →
        st.addOrRemove who = Except.error SoulError.keyError) ∧
    (∀ (m v : String) (ws : Option (List String)) (q : Option String) (pr : ParseResult),
        SoulError.keyError ≠ SoulError.parseError m ∧
        SoulError.keyError ≠ SoulError.unknownVerb v ws q ∧
        SoulError.keyError ≠ SoulError.nonSoulVerb pr) ∧
    soulParse davePlayer none [] "wave except everyone but bob" =
      ([], Except.error SoulError.keyError) := by
  refine ⟨?_, ?_, ?_, ?_, ?_⟩
  · intro pl pp al ai mv ev vb q ws rest1 st w0 hcol hflag hw
    rcases hw with hw | hw | hw
    · subst hw
      unfold parseStep
      rw [if_neg (by simp [hcol])]
      simp only []
      rw [show rstripComma "everyone" = "everyone" from by decide, ite_self]
      rw [if_neg (by decide), if_neg (by decide), if_neg (by decide), if_pos (by decide),
          if_neg (by simp [hflag])]
    · subst hw
      unfold parseStep
      rw [if_neg (by simp [hcol])]
      simp only []
      rw [show rstripComma "everybody" = "everybody" from by decide, ite_self]
      rw [if_neg (by decide), if_neg (by decide), if_neg (by decide), if_pos (by decide),
          if_neg (by simp [hflag])]
    · subst hw
      unfold parseStep
      rw [if_neg (by simp [hcol])]
      simp only []
      rw [show rstripComma "all" = "all" from by decide, ite_self]
      rw [if_neg (by decide), if_neg (by decide), if_neg (by decide), if_pos (by decide),
          if_neg (by simp [hflag])]
  · intro pl pp al ai mv ev vb q ws rest1 st w0 hcol hw
    rcases hw with hw | hw
    · subst hw
      unfold parseStep
      rw [if_neg (by simp [hcol])]
      simp only []
      rw [show rstripComma "except" = "except" from by decide, ite_self]
      rw [if_neg (by decide), if_neg (by decide), if_neg (by decide), if_neg (by decide),
          if_neg (by decide), if_pos (by decide)]
    · subst hw
      unfold parseStep
      rw [if_neg (by simp [hcol])]
      simp only []
      rw [show rstripComma "but" = "but" from by decide, ite_self]
      rw [if_neg (by decide), if_neg (by decide), if_neg (by decide), if_neg (by decide),
          if_neg (by decide), if_pos (by decide)]
  · intro st who hwi hif
    unfold WalkState.addOrRemove
    rw [if_pos hif]
    unfold WalkState.addWho
    rw [hwi]
    simp [WhoDict.setInfo, WhoDict.hasKey, Bind.bind, Except.bind]
  · intro m v ws q pr
    exact ⟨fun h => SoulError.noConfusion h, fun h => SoulError.noConfusion h,
           fun h => SoulError.noConfusion h⟩
  · rfl

def c9st : WalkState :=
  { message := [], collect_message := false, adverb := none, bodypart := none,
    arg_words := [], unrecognized_words := [], who_info := ⟨[], true⟩, who_order := [],
    who_sequence := 0, include_flag := false, previous_word := none, told := [] }

def c9st2 : WalkState :=
  { message := [], collect_message := false, adverb := none, bodypart := none,
    arg_words := [], unrecognized_words := [], who_info := ⟨[], false⟩, who_order := [],
    who_sequence := 0, include_flag := true, previous_word := none, told := [] }

theorem C9_exclusion_everyone_plain_dict_keyerror_witness :
    parseStep davePlayer none [] [] false false (some "wave") none [] "everyone" [] c9st =
      StepOut.next { c9st with who_info := ⟨[], false⟩, who_order := [],
                               who_sequence := 0, arg_words := c9st.arg_words ++ ["everyone"],
                               previous_word := none } 1 ∧
    parseStep davePlayer none [] [] false false (some "wave") none [] "but" [] c9st2 =
      StepOut.next { c9st2 with include_flag := ¬c9st2.include_flag,
                                arg_words := c9st2.arg_words ++ ["but"] } 1 ∧
    c9st2.addOrRemove bobE = Except.error SoulError.keyError ∧
    SoulError.keyError ≠ SoulError.parseError "What?" :=
  ⟨C9_exclusion_everyone_plain_dict_keyerror.1 davePlayer none [] [] false false
      (some "wave") none [] [] c9st "everyone" rfl rfl (Or.inl rfl),
   C9_exclusion_everyone_plain_dict_keyerror.2.1 davePlayer none [] [] false false
      (some "wave") none [] [] c9st2 "but" rfl (Or.inr rfl),
   C9_exclusion_everyone_plain_dict_keyerror.2.2.1 c9st2 bobE rfl rfl,
   (C9_exclusion_everyone_plain_dict_keyerror.2.2.2.1 "What?" "x" none none
      { verb := "x", qualifier := none, adverb := none, bodypart := none, message := "",
        who_order := [], who_info := [], args := [], unrecognized := [], unparsed := "" }).1⟩

end Tale
